import Mathlib

/-!  Shallow embedding of the `multi_view_composer` repository: the template and
expression engine (`template_engine.py`), the layout-tree sizing algorithm
(`layout.py`) and the overlay computation with its cache (`overlays.py`),
together with theorems about them.

Modelling conventions:
* Python `float` values are modelled as exact rationals (`ℚ`).  Every concrete
  input used in a theorem below is chosen so that the corresponding IEEE-754
  double computation is exact, hence agrees with the rational model.
* Python `dict`s are modelled as association lists with in-place update
  (`setKey`), which matches Python's insertion-order / replace-in-place
  semantics; lookups find the unique binding of a key.
* A raised Python exception is modelled as `Option.none` (or as an explicit
  fallback value where the source catches the exception itself).
-/

namespace MVC

/-- Python runtime values that flow through the template engine:
`int`, `float` (modelled as `ℚ`), `bool`, `str`, `None`, and the empty tuple
`()` (the one tuple `eval` can produce from the formula sublanguage, which a
`formula` variable can then feed into a context). -/
inductive Value where
  | int (n : ℤ)
  | float (q : ℚ)
  | bool (b : Bool)
  | str (s : String)
  | null
  | etuple
deriving DecidableEq

/-- The template context: a Python `dict` mapping variable names to values. -/
abbrev Context := List (String × Value)

/-- Python `dict` assignment `d[k] = v` on an association-list model: replaces
the first binding of `k` in place, otherwise appends at the end. -/
def setKey {κ α : Type} [BEq κ] (k : κ) (v : α) : List (κ × α) → List (κ × α)
  | [] => [(k, v)]
  | (k', v') :: rest => if k' == k then (k, v) :: rest else (k', v') :: setKey k v rest

/-- A regex `\w` character (ASCII fragment): letter, digit or underscore. -/
def isWordChar (c : Char) : Bool := c.isAlpha || c.isDigit || c == '_'

/-- A character stripped by Python's `str.strip()` (ASCII whitespace). -/
def isPySpace (c : Char) : Bool :=
  c == ' ' || c == '\t' || c == '\n' || c == '\r' || c == '\x0b' || c == '\x0c'

/-- `str.strip()` on a character list. -/
def pyStripList (l : List Char) : List Char :=
  ((l.dropWhile isPySpace).reverse.dropWhile isPySpace).reverse

/-- Python `str.strip()`. -/
def pyStrip (s : String) : String := String.mk (pyStripList s.toList)

/-- Python `str.lower()` (ASCII fragment). -/
def pyLower (s : String) : String := String.mk (s.toList.map Char.toLower)

/-- Decimal digits of a rational in `[0, 1)`, up to `fuel` digits. -/
def decDigits : ℕ → ℚ → List Char
  | 0, _ => []
  | fuel + 1, q =>
      if q = 0 then []
      else
        let d : ℤ := ⌊q * 10⌋
        Char.ofNat (48 + d.toNat) :: decDigits fuel (q * 10 - (d : ℚ))

/-- `str()` of a Python float, for floats whose value has a finite decimal
expansion (the only floats produced by the concrete inputs in this file);
on that fragment it matches CPython's shortest round-trip repr. -/
def floatStr (q : ℚ) : String :=
  let sign := if q < 0 then "-" else ""
  let a := |q|
  let ip : ℤ := ⌊a⌋
  let frac := decDigits 60 (a - (ip : ℚ))
  sign ++ toString ip ++ (if frac.isEmpty then ".0" else String.mk ('.' :: frac))

/-- Python `str()` of a value. -/
def pyStr : Value → String
  | .int n => toString n
  | .float q => floatStr q
  | .bool b => if b then "True" else "False"
  | .str s => s
  | .null => "None"
  | .etuple => "()"

/-- `dropWhile` never lengthens a list (used for termination of the scanners). -/
theorem dropWhile_length_le {α : Type} (p : α → Bool) (l : List α) :
    (l.dropWhile p).length ≤ l.length := by
  induction l with
  | nil => simp [List.dropWhile]
  | cons a t ih =>
      by_cases h : p a <;> simp [List.dropWhile, h] <;> omega

/-- Scanner of `_VAR_PATTERN.sub` (pattern `\{(\w+)\}`, `template_engine.py`
line 16): at each `{`, a maximal nonempty run of word characters followed by
`}` is a match; the match is replaced by `str(context[name])` when `name` is
bound, and kept literally otherwise; on a failed match the scanner advances by
one character. -/
def subAux (ctx : Context) : List Char → List Char
  | [] => []
  | c :: rest =>
      if c = '{' then
        let nm := rest.takeWhile isWordChar
        let rest' := rest.dropWhile isWordChar
        if nm ≠ [] ∧ rest'.head? = some '}' then
          match List.lookup (String.mk nm) ctx with
          | some v => (pyStr v).toList ++ subAux ctx rest'.tail
          | Option.none => c :: (nm ++ '}' :: subAux ctx rest'.tail)
        else c :: subAux ctx rest
      else c :: subAux ctx rest
termination_by l => l.length
decreasing_by
  all_goals
    (have h1 : (rest.dropWhile isWordChar).length ≤ rest.length :=
       dropWhile_length_le _ _
     simp [List.length_tail]
     try omega)

/-- `_substitute_variables` (`template_engine.py` lines 30-38). -/
def substituteVariables (expr : String) (ctx : Context) : String :=
  String.mk (subAux ctx expr.toList)

/-- Numeric value of a digit character. -/
def digitVal (c : Char) : ℕ := c.toNat - 48

/-- A nonempty all-digit character list, as a natural number. -/
def parseDigits (l : List Char) : Option ℕ :=
  if l ≠ [] ∧ l.all Char.isDigit then
    some (l.foldl (fun a c => 10 * a + digitVal c) 0)
  else Option.none

/-- Python `int(str)`: optional sign then digits.  (CPython additionally
accepts `_` digit grouping, which is not modelled and not exercised.) -/
def pyParseIntList (l : List Char) : Option ℤ :=
  match pyStripList l with
  | '+' :: ds => (parseDigits ds).map (fun n => (n : ℤ))
  | '-' :: ds => (parseDigits ds).map (fun n => -(n : ℤ))
  | ds => (parseDigits ds).map (fun n => (n : ℤ))

/-- Mantissa of a float literal: `digits [. digits]` with at least one digit. -/
def parseMantissa (l : List Char) : Option ℚ :=
  let ip := l.takeWhile Char.isDigit
  let rest := l.dropWhile Char.isDigit
  match rest with
  | [] => if ip.isEmpty then Option.none else (parseDigits ip).map (fun n => (n : ℚ))
  | '.' :: fp =>
      if fp.all Char.isDigit ∧ (ip ≠ [] ∨ fp ≠ []) then
        some (((ip.foldl (fun a c => 10 * a + digitVal c) 0 : ℕ) : ℚ) +
              ((fp.foldl (fun a c => 10 * a + digitVal c) 0 : ℕ) : ℚ) / (10 : ℚ) ^ fp.length)
      else Option.none
  | _ => Option.none

/-- Python `float(str)` on finite decimal/scientific literals: optional sign,
mantissa, optional exponent.  (CPython additionally accepts `inf`/`nan` — not
representable in the rational model — and `_` digit grouping; neither is
exercised by any theorem below.) -/
def pyParseFloatList (l : List Char) : Option ℚ :=
  let l' := pyStripList l
  let sb : ℚ × List Char :=
    match l' with
    | '+' :: t => (1, t)
    | '-' :: t => (-1, t)
    | t => (1, t)
  let mant := sb.2.takeWhile (fun c => c ≠ 'e' ∧ c ≠ 'E')
  let rest := sb.2.dropWhile (fun c => c ≠ 'e' ∧ c ≠ 'E')
  match rest with
  | [] => (parseMantissa mant).map (fun m => sb.1 * m)
  | _ :: expPart =>
      let se : ℤ × List Char :=
        match expPart with
        | '+' :: t => (1, t)
        | '-' :: t => (-1, t)
        | t => (1, t)
      match parseMantissa mant, parseDigits se.2 with
      | some m, some e => some (sb.1 * m * (10 : ℚ) ^ (se.1 * (e : ℤ)))
      | _, _ => Option.none

/-- `_parse_value` (`template_engine.py` lines 92-116): booleans, quoted string
literals, numerics (`float` when a `.` is present, else `int`), raw string
fallback.  The `context` parameter is unused, as in the source. -/
def parseValue (valueStr : String) (_ctx : Context) : Value :=
  let s := pyStrip valueStr
  if pyLower s = "true" then .bool true
  else if pyLower s = "false" then .bool false
  else
    let l := s.toList
    if (l.head? = some '\'' ∧ l.getLast? = some '\'') ∨
       (l.head? = some '"' ∧ l.getLast? = some '"') then
      .str (String.mk (l.drop 1).dropLast)
    else if '.' ∈ l then
      match pyParseFloatList l with
      | some q => .float q
      | Option.none => .str s
    else
      match pyParseIntList l with
      | some n => .int n
      | Option.none => .str s

/-- The six comparison operators of the engine. -/
inductive CmpOp where
  | eq | ne | le | ge | lt | gt
deriving DecidableEq

/-- The operator's source text. -/
def opToken : CmpOp → List Char
  | .eq => ['=', '=']
  | .ne => ['!', '=']
  | .le => ['<', '=']
  | .ge => ['>', '=']
  | .lt => ['<']
  | .gt => ['>']

/-- The keys of the `OPERATORS` dict in insertion order
(`template_engine.py` lines 20-27). -/
def OPERATORS : List CmpOp := [.eq, .ne, .le, .ge, .lt, .gt]

/-- Numeric view of a value for Python's cross-type numeric comparisons
(`bool` counts as `0`/`1`). -/
def toRat : Value → Option ℚ
  | .int n => some ((n : ℚ))
  | .float q => some q
  | .bool b => some (if b then 1 else 0)
  | .str _ => Option.none
  | .null => Option.none
  | .etuple => Option.none

/-- Python `==`: numeric cross-type equality, string equality, `None == None`;
everything else is `False` (never an error). -/
def pyEq (a b : Value) : Bool :=
  match toRat a, toRat b with
  | some x, some y => decide (x = y)
  | _, _ =>
      match a, b with
      | .str s, .str t => decide (s = t)
      | .null, .null => true
      | .etuple, .etuple => true
      | _, _ => false

/-- Python `<`: numbers compare by value, strings lexicographically, any other
pair raises `TypeError` (modelled `none`). -/
def pyCmpLt (a b : Value) : Option Bool :=
  match toRat a, toRat b with
  | some x, some y => some (decide (x < y))
  | _, _ =>
      match a, b with
      | .str s, .str t => some (decide (s < t))
      | .etuple, .etuple => some false
      | _, _ => Option.none

/-- `operator.eq/ne/lt/gt/le/ge` on engine values; `none` is a raised
`TypeError`.  On numbers and strings Python's `≤`/`≥`/`>` agree with the
negation/flip of `<`, and they raise on exactly the same pairs. -/
def compareOp : CmpOp → Value → Value → Option Bool
  | .eq, a, b => some (pyEq a b)
  | .ne, a, b => some (!pyEq a b)
  | .lt, a, b => pyCmpLt a b
  | .gt, a, b => pyCmpLt b a
  | .le, a, b => (pyCmpLt b a).map (fun x => !x)
  | .ge, a, b => (pyCmpLt a b).map (fun x => !x)

/-- `s.split(pat, 1)` when `pat` occurs in `s`: split at the first occurrence,
returning the parts before and after. -/
def splitFirst (pat : List Char) : List Char → Option (List Char × List Char)
  | [] => if pat = [] then some ([], []) else Option.none
  | c :: rest =>
      if pat.isPrefixOf (c :: rest) then some ([], (c :: rest).drop pat.length)
      else (splitFirst pat rest).map (fun p => (c :: p.1, p.2))

/-- The operator-scanning loop of `evaluate_condition` (lines 64-66): try each
operator in `OPERATORS` order; the first one occurring anywhere in the string
wins, and the string is split at that operator's first occurrence. -/
def findOpAux (s : List Char) : List CmpOp → Option (CmpOp × List Char × List Char)
  | [] => Option.none
  | op :: rest =>
      match splitFirst (opToken op) s with
      | some (l, r) => some (op, l, r)
      | Option.none => findOpAux s rest

/-- Operator selection of `evaluate_condition`. -/
def findOpSplit (s : List Char) : Option (CmpOp × List Char × List Char) :=
  findOpAux s OPERATORS

/-- The guarded comparison of `evaluate_condition` lines 76-79: a raised
`TypeError`/`ValueError` yields `False`. -/
def applyCmp (op : CmpOp) (l r : Value) : Bool :=
  match compareOp op l r with
  | some b => b
  | Option.none => false

/-- Python truthiness of an engine value. -/
def pyTruthy : Value → Bool
  | .int n => decide (n ≠ 0)
  | .float q => decide (q ≠ 0)
  | .bool b => b
  | .str s => decide (s ≠ "")
  | .null => false
  | .etuple => false

/-- `evaluate_condition` (`template_engine.py` lines 41-89). -/
def evaluate_condition (expr : String) (ctx : Context) : Bool :=
  if expr = "" then true
  else
    let substituted := substituteVariables expr ctx
    match findOpSplit substituted.toList with
    | some (op, l, r) =>
        applyCmp op (parseValue (pyStrip (String.mk l)) ctx)
                    (parseValue (pyStrip (String.mk r)) ctx)
    | Option.none =>
        let s := pyStrip substituted
        if pyLower s = "true" then true
        else if pyLower s = "false" then false
        else pyTruthy ((List.lookup s ctx).getD (.bool false))

/-- Modelled from the spec's words for claim C1 only: select the comparison
operator whose *first occurrence in the substituted string* is earliest
(ties broken by the order of the operator set), instead of the first operator
in set order that occurs anywhere.  Used solely to compare the claim's reading
against the source's `findOpSplit`. -/
def specFindOpSplit (s : List Char) : Option (CmpOp × List Char × List Char) :=
  (OPERATORS.filterMap
      (fun op => (splitFirst (opToken op) s).map (fun p => (op, p.1, p.2)))).foldl
    (fun best c =>
      match best with
      | Option.none => some c
      | some b => if c.2.1.length < b.2.1.length then some c else some b)
    Option.none

/-- The condition evaluator as claim C1 reads it: identical to
`evaluate_condition` except that the operator is chosen by earliest position
in the string (`specFindOpSplit`). -/
def evaluateConditionSpecC1 (expr : String) (ctx : Context) : Bool :=
  if expr = "" then true
  else
    let substituted := substituteVariables expr ctx
    match specFindOpSplit substituted.toList with
    | some (op, l, r) =>
        applyCmp op (parseValue (pyStrip (String.mk l)) ctx)
                    (parseValue (pyStrip (String.mk r)) ctx)
    | Option.none =>
        let s := pyStrip substituted
        if pyLower s = "true" then true
        else if pyLower s = "false" then false
        else pyTruthy ((List.lookup s ctx).getD (.bool false))

/-! ## Layout trees (`layout.py`) -/

/-- Concatenation direction (`layout.py` lines 17-20). -/
inductive Direction where
  | vertical | horizontal
deriving DecidableEq

/-- `LayoutNode` (`layout.py` lines 23-31).  The source is a single dataclass
whose `camera` field being set marks a leaf; the two uses are modelled as an
explicit two-variant tree. -/
inductive LNode where
  | leaf (camera : String) (height width : ℤ)
  | junction (direction : Direction) (height width : ℤ) (left right : LNode)
deriving DecidableEq

/-- The node's `height` field. -/
def LNode.height : LNode → ℤ
  | .leaf _ h _ => h
  | .junction _ h _ _ _ => h

/-- The node's `width` field. -/
def LNode.width : LNode → ℤ
  | .leaf _ _ w => w
  | .junction _ _ w _ _ => w

/-- The junction's first child (`left`), if any. -/
def LNode.leftChild : LNode → Option LNode
  | .junction _ _ _ l _ => some l
  | _ => Option.none

/-- The junction's second child (`right`), if any. -/
def LNode.rightChild : LNode → Option LNode
  | .junction _ _ _ _ r => some r
  | _ => Option.none

/-- Python's built-in `round` to an integer: round half to even. -/
def pyRound (q : ℚ) : ℤ :=
  let f := ⌊q⌋
  let r := q - (f : ℚ)
  if r < 1/2 then f
  else if 1/2 < r then f + 1
  else if f % 2 = 0 then f else f + 1

/-- Modelled from the spec's words for claim C2 only: rounding to the nearest
integer with ties rounding half away from zero. -/
def specRoundHalfAway (q : ℚ) : ℤ :=
  if 0 ≤ q then ⌊q + 1/2⌋ else ⌈q - 1/2⌉

/-- The shared `target_sizes` dict: camera name ↦ (height, width). -/
abbrev TargetSizes := List (String × ℤ × ℤ)

/-- `LayoutNode.resize` (`layout.py` lines 33-59), with the mutation of the
node and of the shared `target_sizes` dict made explicit as returned values.
The Python float arithmetic `new / old` and `child * ratio` is modelled
exactly over `ℚ`. -/
def resize : LNode → ℤ → ℤ → TargetSizes → LNode × TargetSizes
  | .leaf cam _ _, newHeight, newWidth, ts =>
      (.leaf cam newHeight newWidth, setKey cam (newHeight, newWidth) ts)
  | .junction dir h w l r, newHeight, newWidth, ts =>
      match dir with
      | .vertical =>
          let ratio : ℚ := (newHeight : ℚ) / (h : ℚ)
          let leftHeight := pyRound ((l.height : ℚ) * ratio)
          let rightHeight := newHeight - leftHeight
          let res₁ := resize l leftHeight newWidth ts
          let res₂ := resize r rightHeight newWidth res₁.2
          (.junction dir newHeight newWidth res₁.1 res₂.1, res₂.2)
      | .horizontal =>
          let ratio : ℚ := (newWidth : ℚ) / (w : ℚ)
          let leftWidth := pyRound ((l.width : ℚ) * ratio)
          let rightWidth := newWidth - leftWidth
          let res₁ := resize l newHeight leftWidth ts
          let res₂ := resize r newHeight rightWidth res₁.2
          (.junction dir newHeight newWidth res₁.1 res₂.1, res₂.2)

/-- `make_junction_node` (`layout.py` lines 79-129). -/
def make_junction_node (node1 node2 : LNode) (direction : Direction)
    (ts : TargetSizes) : LNode × TargetSizes :=
  match direction with
  | .vertical =>
      if node2.width < node1.width then
        let scale : ℚ := (node2.width : ℚ) / (node1.width : ℚ)
        let newHeight := pyRound ((node1.height : ℚ) * scale)
        let res := resize node1 newHeight node2.width ts
        (.junction direction (res.1.height + node2.height) res.1.width res.1 node2, res.2)
      else if node1.width < node2.width then
        let scale : ℚ := (node1.width : ℚ) / (node2.width : ℚ)
        let newHeight := pyRound ((node2.height : ℚ) * scale)
        let res := resize node2 newHeight node1.width ts
        (.junction direction (node1.height + res.1.height) node1.width node1 res.1, res.2)
      else
        (.junction direction (node1.height + node2.height) node1.width node1 node2, ts)
  | .horizontal =>
      if node2.height < node1.height then
        let scale : ℚ := (node2.height : ℚ) / (node1.height : ℚ)
        let newWidth := pyRound ((node1.width : ℚ) * scale)
        let res := resize node1 node2.height newWidth ts
        (.junction direction res.1.height (res.1.width + node2.width) res.1 node2, res.2)
      else if node1.height < node2.height then
        let scale : ℚ := (node1.height : ℚ) / (node2.height : ℚ)
        let newWidth := pyRound ((node2.width : ℚ) * scale)
        let res := resize node2 node1.height newWidth ts
        (.junction direction node1.height (node1.width + res.1.width) node1 res.1, res.2)
      else
        (.junction direction node1.height (node1.width + node2.width) node1 node2, ts)

/-- `LayoutNodeConfig` (`config.py` lines 203-208). -/
inductive LayoutNodeConfig where
  | mk (direction : Option String) (camera : Option String)
       (children : List LayoutNodeConfig)

/-- Camera sizes as passed to the builder: camera name ↦ (height, width). -/
abbrev CameraSizes := List (String × ℤ × ℤ)

/-- The pairwise left-to-right combination loop of `build_layout_from_config`
(lines 171-174). -/
def foldJunctions (direction : Direction) (acc : LNode) (rest : List LNode)
    (ts : TargetSizes) : LNode × TargetSizes :=
  match rest with
  | [] => (acc, ts)
  | n :: more =>
      let res := make_junction_node acc n direction ts
      foldJunctions direction res.1 more res.2

mutual

/-- `build_layout_from_config` (`layout.py` lines 132-176); the
`ValueError` for a junction with fewer than two children is `none`. -/
def build_layout_from_config (cfg : LayoutNodeConfig) (cameraSizes : CameraSizes)
    (ts : TargetSizes) : Option (LNode × TargetSizes) :=
  match cfg with
  | .mk dir cam children =>
      match cam with
      | some camera =>
          let hw := (List.lookup camera cameraSizes).getD (480, 640)
          some (.leaf camera hw.1 hw.2, setKey camera hw ts)
      | Option.none =>
          if children.length < 2 then Option.none
          else
            let direction := if dir = some "horizontal" then Direction.horizontal
                             else Direction.vertical
            match buildChildren children cameraSizes ts with
            | some (n :: ns, ts₁) => some (foldJunctions direction n ns ts₁)
            | _ => Option.none

/-- The child-building loop of `build_layout_from_config` (lines 166-169). -/
def buildChildren (cfgs : List LayoutNodeConfig) (cameraSizes : CameraSizes)
    (ts : TargetSizes) : Option (List LNode × TargetSizes) :=
  match cfgs with
  | [] => some ([], ts)
  | c :: rest =>
      match build_layout_from_config c cameraSizes ts with
      | some (n, ts₁) =>
          match buildChildren rest cameraSizes ts₁ with
          | some (ns, ts₂) => some (n :: ns, ts₂)
          | Option.none => Option.none
      | Option.none => Option.none

end

/-- The perpendicular-dimension invariant: every junction's two children share
the dimension perpendicular to the concatenation axis (equal widths for a
vertical junction, equal heights for a horizontal one), recursively. -/
def perpOK : LNode → Bool
  | .leaf .. => true
  | .junction .vertical _ _ l r => l.width == r.width && perpOK l && perpOK r
  | .junction .horizontal _ _ l r => l.height == r.height && perpOK l && perpOK r

/-- The no-drift invariant: every junction's children sum exactly to the
junction's dimension along the concatenation axis, recursively. -/
def sumOK : LNode → Bool
  | .leaf .. => true
  | .junction .vertical h _ l r => l.height + r.height == h && sumOK l && sumOK r
  | .junction .horizontal _ w l r => l.width + r.width == w && sumOK l && sumOK r

/-! ## The formula evaluator (`evaluate_formula`) -/

/-- Outcome of a raised exception inside the `eval` call of
`evaluate_formula`: `caught` is one of the exception classes listed in the
source's `except (SyntaxError, NameError, TypeError, ZeroDivisionError)`
clause; `uncaught` is any other exception — in this sublanguage an
`OverflowError` — which therefore propagates out of `evaluate_formula`. -/
inductive EvalErr where
  | caught | uncaught
deriving DecidableEq

/-- A Python number: `int` or `float` (exact-rational model). -/
inductive NumV where
  | int (n : ℤ)
  | float (q : ℚ)
deriving DecidableEq

/-- The rational value of a number. -/
def NumV.toQ : NumV → ℚ
  | .int n => (n : ℚ)
  | .float q => q

/-- A number as an engine value. -/
def NumV.toValue : NumV → Value
  | .int n => .int n
  | .float q => .float q

/-- The largest finite IEEE-754 double, `(2 − 2⁻⁵²)·2¹⁰²³`, as an exact
rational. -/
def maxDouble : ℚ := ((2 ^ 1024 - 2 ^ 971 : ℤ) : ℚ)

/-- A number as a C double operand, as CPython's binary float operations
convert it: a `float` is used as is; an `int` is converted, raising an
uncaught `OverflowError` ("int too large to convert to float") when its
magnitude exceeds the double range.  (Floats whose *operations* overflow
silently produce `inf`, which is outside the rational model; reaching `inf`
here would need a ≥ 309-digit literal and is not exercised.) -/
def toDouble : NumV → Except EvalErr ℚ
  | .float q => .ok q
  | .int m => if maxDouble < |(m : ℚ)| then .error .uncaught else .ok ((m : ℚ))

/-- Python `+` on numbers: `int + int` is exact unbounded `int`; any `float`
operand converts both sides to doubles. -/
def numAdd (a b : NumV) : Except EvalErr NumV :=
  match a, b with
  | .int m, .int n => .ok (.int (m + n))
  | _, _ => do
      let x ← toDouble a
      let y ← toDouble b
      .ok (.float (x + y))

/-- Python `-` on numbers. -/
def numSub (a b : NumV) : Except EvalErr NumV :=
  match a, b with
  | .int m, .int n => .ok (.int (m - n))
  | _, _ => do
      let x ← toDouble a
      let y ← toDouble b
      .ok (.float (x - y))

/-- Python `*` on numbers. -/
def numMul (a b : NumV) : Except EvalErr NumV :=
  match a, b with
  | .int m, .int n => .ok (.int (m * n))
  | _, _ => do
      let x ← toDouble a
      let y ← toDouble b
      .ok (.float (x * y))

/-- Python unary `-` on numbers. -/
def numNeg : NumV → NumV
  | .int n => .int (-n)
  | .float q => .float (-q)

/-- Python true division `/`: always a `float`; division by zero raises
`ZeroDivisionError` (caught by the source's except clause); `int / int` whose
exact quotient exceeds the double range raises an uncaught `OverflowError`,
as CPython's `int.__truediv__` does. -/
def numDiv (a b : NumV) : Except EvalErr NumV :=
  match a, b with
  | .int m, .int n =>
      if n = 0 then .error .caught
      else
        let r := (m : ℚ) / (n : ℚ)
        if maxDouble < |r| then .error .uncaught else .ok (.float r)
  | _, _ => do
      let x ← toDouble a
      let y ← toDouble b
      if y = 0 then .error .caught else .ok (.float (x / y))

/-- Python floor division `//`: `int // int` is an exact `int` (floor), any
`float` operand gives a floored `float`; division by zero raises
`ZeroDivisionError` (caught). -/
def numFloorDiv (a b : NumV) : Except EvalErr NumV :=
  match a, b with
  | .int m, .int n =>
      if n = 0 then .error .caught else .ok (.int (Int.fdiv m n))
  | _, _ => do
      let x ← toDouble a
      let y ← toDouble b
      if y = 0 then .error .caught
      else .ok (.float ((⌊x / y⌋ : ℤ) : ℚ))

/-- C `pow` on a double base with an integral exponent, as CPython's
`float.__pow__` wraps it: base `0` with a negative exponent raises
`ZeroDivisionError` (caught); a result beyond the double range raises
`OverflowError`, which the source's except clause does NOT list, so it is
uncaught and propagates (e.g. `10.0 ** 400`).  The overflow test is on the
exact rational value; CPython tests the rounded double, which can differ only
within one ulp of the threshold (not exercised). -/
def floatPow (x : ℚ) (e : ℤ) : Except EvalErr NumV :=
  if x = 0 ∧ e < 0 then .error .caught
  else
    let r := x ^ e
    if maxDouble < |r| then .error .uncaught else .ok (.float r)

/-- Python `**` on numbers.  `int ** int` with a nonnegative exponent is
exact unbounded `int` arithmetic (never raises); every other combination goes
through C double `pow` (`floatPow`), converting operands with `toDouble`.
A non-integral `float` exponent generally has an irrational value, outside
the rational model: mapped to a caught error here (documented, unexercised
divergence — CPython computes a float, or a complex for a negative base). -/
def numPow (a b : NumV) : Except EvalErr NumV :=
  match b with
  | .int e =>
      match a with
      | .int m =>
          if 0 ≤ e then .ok (.int (m ^ e.toNat))
          else do
            let x ← toDouble a
            floatPow x e
      | .float q => floatPow q e
  | .float qe =>
      if qe.den = 1 then do
        let x ← toDouble a
        floatPow x qe.num
      else .error .caught

/-- A value of the restricted `eval` sublanguage: a number, or the empty
tuple `()` — the only tuple expressible without commas.  `eval("()")`
succeeds in CPython and returns `()`. -/
inductive EVal where
  | num (v : NumV)
  | tup
deriving DecidableEq

/-- An `eval` result as an engine value. -/
def EVal.toValue : EVal → Value
  | .num n => n.toValue
  | .tup => .etuple

/-- `+` on `eval` values: tuple concatenation `() + () = ()`; a tuple mixed
with a number raises `TypeError` (caught). -/
def evalAdd : EVal → EVal → Except EvalErr EVal
  | .num a, .num b => (numAdd a b).map .num
  | .tup, .tup => .ok .tup
  | _, _ => .error .caught

/-- `-` on `eval` values: any tuple operand raises `TypeError` (caught). -/
def evalSub : EVal → EVal → Except EvalErr EVal
  | .num a, .num b => (numSub a b).map .num
  | _, _ => .error .caught

/-- `*` on `eval` values: `() * n` and `n * ()` with an `int` count are tuple
repetition, again `()`; a `float` count or `() * ()` raises `TypeError`
(caught). -/
def evalMul : EVal → EVal → Except EvalErr EVal
  | .num a, .num b => (numMul a b).map .num
  | .tup, .num (.int _) => .ok .tup
  | .num (.int _), .tup => .ok .tup
  | _, _ => .error .caught

/-- `/` on `eval` values. -/
def evalDiv : EVal → EVal → Except EvalErr EVal
  | .num a, .num b => (numDiv a b).map .num
  | _, _ => .error .caught

/-- `//` on `eval` values. -/
def evalFloorDiv : EVal → EVal → Except EvalErr EVal
  | .num a, .num b => (numFloorDiv a b).map .num
  | _, _ => .error .caught

/-- `**` on `eval` values. -/
def evalPow : EVal → EVal → Except EvalErr EVal
  | .num a, .num b => (numPow a b).map .num
  | _, _ => .error .caught

/-- Unary `-` on `eval` values. -/
def evalNeg : EVal → Except EvalErr EVal
  | .num a => .ok (.num (numNeg a))
  | .tup => .error .caught

/-- Unary `+` on `eval` values (`+()` raises `TypeError`). -/
def evalPos : EVal → Except EvalErr EVal
  | .num a => .ok (.num a)
  | .tup => .error .caught

/-- Tokens of the restricted arithmetic sublanguage. -/
inductive Tok where
  | num (v : NumV)
  | plus | minus | star | slash | dstar | dslash | lparen | rparen
deriving DecidableEq

/-- A maximal digits-and-dots run as a number token: no dot gives an `int`
literal, one dot a `float` literal, anything else is a tokenizer error.
(A `float` literal beyond the double range is `inf` in CPython; it stays an
exact rational here — a documented, unexercised gap of the `inf`-free
model.) -/
def lexNumber (blob : List Char) : Option NumV :=
  let digs := blob.filter Char.isDigit
  if digs.isEmpty then Option.none
  else if blob.count '.' = 0 then (parseDigits blob).map (fun n => .int ((n : ℤ)))
  else if blob.count '.' = 1 then (parseMantissa blob).map .float
  else Option.none

/-- Tokenizer for the characters admitted by `evaluate_formula`'s character
filter: digits, `.`, `+ - * /` (with `**` and `//` as two-character tokens, as
in CPython), parentheses and spaces. -/
def tokenize : List Char → Option (List Tok)
  | [] => some []
  | c :: rest =>
      if c = ' ' then tokenize rest
      else if c = '+' then (tokenize rest).map (fun ts => Tok.plus :: ts)
      else if c = '(' then (tokenize rest).map (fun ts => Tok.lparen :: ts)
      else if c = ')' then (tokenize rest).map (fun ts => Tok.rparen :: ts)
      else if c = '-' then (tokenize rest).map (fun ts => Tok.minus :: ts)
      else if c = '*' then
        if rest.head? = some '*' then (tokenize rest.tail).map (fun ts => Tok.dstar :: ts)
        else (tokenize rest).map (fun ts => Tok.star :: ts)
      else if c = '/' then
        if rest.head? = some '/' then (tokenize rest.tail).map (fun ts => Tok.dslash :: ts)
        else (tokenize rest).map (fun ts => Tok.slash :: ts)
      else if c.isDigit || c = '.' then
        let blob := c :: rest.takeWhile (fun ch => ch.isDigit || ch = '.')
        let rest' := rest.dropWhile (fun ch => ch.isDigit || ch = '.')
        match lexNumber blob with
        | some v => (tokenize rest').map (fun ts => Tok.num v :: ts)
        | Option.none => Option.none
      else Option.none
termination_by l => l.length
decreasing_by
  all_goals
    (have h1 : (rest.dropWhile (fun ch => ch.isDigit || ch = '.')).length ≤ rest.length :=
       dropWhile_length_le _ _
     simp [List.length_tail]
     try omega)

mutual

/-- Additive level of the Python expression grammar (`a_expr`).  Running out
of fuel is a syntax error; the initial fuel is generous enough that this
cannot happen before the parse resolves. -/
def parseE (fuel : ℕ) (toks : List Tok) : Except EvalErr (EVal × List Tok) :=
  match fuel with
  | 0 => .error .caught
  | fuel + 1 =>
      match parseT fuel toks with
      | .ok (v, rest) => parseELoop fuel v rest
      | .error e => .error e

/-- Left-associative `+`/`-` chain; evaluation errors propagate. -/
def parseELoop (fuel : ℕ) (acc : EVal) (toks : List Tok) :
    Except EvalErr (EVal × List Tok) :=
  match fuel with
  | 0 => .error .caught
  | fuel + 1 =>
      match toks with
      | Tok.plus :: rest =>
          match parseT fuel rest with
          | .ok (v, rest') =>
              match evalAdd acc v with
              | .ok a => parseELoop fuel a rest'
              | .error e => .error e
          | .error e => .error e
      | Tok.minus :: rest =>
          match parseT fuel rest with
          | .ok (v, rest') =>
              match evalSub acc v with
              | .ok a => parseELoop fuel a rest'
              | .error e => .error e
          | .error e => .error e
      | _ => .ok (acc, toks)

/-- Multiplicative level (`m_expr`). -/
def parseT (fuel : ℕ) (toks : List Tok) : Except EvalErr (EVal × List Tok) :=
  match fuel with
  | 0 => .error .caught
  | fuel + 1 =>
      match parseU fuel toks with
      | .ok (v, rest) => parseTLoop fuel v rest
      | .error e => .error e

/-- Left-associative `*`, `/`, `//` chain; evaluation errors propagate. -/
def parseTLoop (fuel : ℕ) (acc : EVal) (toks : List Tok) :
    Except EvalErr (EVal × List Tok) :=
  match fuel with
  | 0 => .error .caught
  | fuel + 1 =>
      match toks with
      | Tok.star :: rest =>
          match parseU fuel rest with
          | .ok (v, rest') =>
              match evalMul acc v with
              | .ok a => parseTLoop fuel a rest'
              | .error e => .error e
          | .error e => .error e
      | Tok.slash :: rest =>
          match parseU fuel rest with
          | .ok (v, rest') =>
              match evalDiv acc v with
              | .ok a => parseTLoop fuel a rest'
              | .error e => .error e
          | .error e => .error e
      | Tok.dslash :: rest =>
          match parseU fuel rest with
          | .ok (v, rest') =>
              match evalFloorDiv acc v with
              | .ok a => parseTLoop fuel a rest'
              | .error e => .error e
          | .error e => .error e
      | _ => .ok (acc, toks)

/-- Unary level (`u_expr`): `-`/`+` prefixes, binding looser than `**`;
unary operators on a tuple raise `TypeError` (caught). -/
def parseU (fuel : ℕ) (toks : List Tok) : Except EvalErr (EVal × List Tok) :=
  match fuel with
  | 0 => .error .caught
  | fuel + 1 =>
      match toks with
      | Tok.minus :: rest =>
          match parseU fuel rest with
          | .ok (v, rest') =>
              match evalNeg v with
              | .ok w => .ok (w, rest')
              | .error e => .error e
          | .error e => .error e
      | Tok.plus :: rest =>
          match parseU fuel rest with
          | .ok (v, rest') =>
              match evalPos v with
              | .ok w => .ok (w, rest')
              | .error e => .error e
          | .error e => .error e
      | _ => parsePow fuel toks

/-- Power level (`power`): right-associative `**` whose right operand is a
`u_expr`, as in Python. -/
def parsePow (fuel : ℕ) (toks : List Tok) : Except EvalErr (EVal × List Tok) :=
  match fuel with
  | 0 => .error .caught
  | fuel + 1 =>
      match parseP fuel toks with
      | .ok (b, rest) =>
          match rest with
          | Tok.dstar :: rest' =>
              match parseU fuel rest' with
              | .ok (e, rest'') =>
                  match evalPow b e with
                  | .ok v => .ok (v, rest'')
                  | .error err => .error err
              | .error err => .error err
          | _ => .ok (b, rest)
      | .error e => .error e

/-- Primary level: a number literal, the empty tuple `()`, or a
parenthesised expression. -/
def parseP (fuel : ℕ) (toks : List Tok) : Except EvalErr (EVal × List Tok) :=
  match fuel with
  | 0 => .error .caught
  | fuel + 1 =>
      match toks with
      | Tok.num v :: rest => .ok (.num v, rest)
      | Tok.lparen :: Tok.rparen :: rest => .ok (.tup, rest)
      | Tok.lparen :: rest =>
          match parseE fuel rest with
          | .ok (v, Tok.rparen :: rest') => .ok (v, rest')
          | .ok _ => .error .caught
          | .error e => .error e
      | _ => .error .caught

end

/-- CPython `eval` restricted to the sublanguage reachable from
`evaluate_formula`'s character filter: tokenize, parse with Python's
precedence, evaluate.  `.error .caught` is a raised exception the source
catches (`SyntaxError`, `TypeError`, `ZeroDivisionError`); `.error .uncaught`
is an `OverflowError`, which the source's except clause misses. -/
def pyEvalArith (s : String) : Except EvalErr Value :=
  match tokenize s.toList with
  | some toks =>
      match parseE (8 * (toks.length + 1)) toks with
      | .ok (v, []) => .ok v.toValue
      | .ok _ => .error .caught
      | .error e => .error e
  | Option.none => .error .caught

/-- The allowed character set of `evaluate_formula` (line 136). -/
def allowedFormulaChars : List Char := "0123456789.+-*/ ()".toList

/-- `evaluate_formula` (`template_engine.py` lines 119-150): substitute, check
the character filter (spaces removed first, as in the source); on filter
failure try a direct `float(...)` parse and fall back to the substituted
string; otherwise evaluate the arithmetic expression, with errors from the
`except (SyntaxError, NameError, TypeError, ZeroDivisionError)` clause
falling back to the substituted string.  `Option.none` models an exception
that clause does not catch — an `OverflowError` such as `10.0 ** 400` —
propagating out of `evaluate_formula`. -/
def evaluate_formula (expr : String) (ctx : Context) : Option Value :=
  let substituted := substituteVariables expr ctx
  if ((substituted.toList.filter (fun c => c ≠ ' ')).all
        (fun c => allowedFormulaChars.contains c)) = false then
    match pyParseFloatList substituted.toList with
    | some q => some (.float q)
    | Option.none => some (.str substituted)
  else
    match pyEvalArith substituted with
    | .ok v => some v
    | .error .caught => some (.str substituted)
    | .error .uncaught => Option.none

/-! ## Template rendering and the variable resolver -/

/-- Models Python's built-in `format(value, spec)` on the fragment exercised in
this file: the empty spec is `str(value)`; any other spec is treated as
raising (modelled `none`), upon which `render_template` falls back to
`str(value)`.  Every theorem below evaluates `pyFormat` only at points where
this fragment agrees with CPython. -/
def pyFormat (v : Value) (spec : String) : Option String :=
  if spec = "" then some (pyStr v) else Option.none

/-- Scanner of `_TEMPLATE_PATTERN.sub` (pattern `\{(\w+)(:[^}]+)?\}`,
`template_engine.py` line 17), as used by `render_template` (lines 200-234):
a match is `{name}` or `{name:fmt}` with `name` a maximal nonempty word-run
and `fmt` a nonempty run of non-`}` characters; unknown names keep the full
match, a failing format falls back to `str(value)`. -/
def renderAux (ctx : Context) : List Char → List Char
  | [] => []
  | c :: rest =>
      if c = '{' then
        let nm := rest.takeWhile isWordChar
        let rest' := rest.dropWhile isWordChar
        if nm ≠ [] ∧ rest'.head? = some '}' then
          match List.lookup (String.mk nm) ctx with
          | some v => (pyStr v).toList ++ renderAux ctx rest'.tail
          | Option.none => c :: (nm ++ '}' :: renderAux ctx rest'.tail)
        else
          let fmtRest := rest'.tail
          let fmt := fmtRest.takeWhile (fun ch => ch != '}')
          let fmtRest' := fmtRest.dropWhile (fun ch => ch != '}')
          if nm ≠ [] ∧ rest'.head? = some ':' ∧ fmt ≠ [] ∧ fmtRest'.head? = some '}' then
            match List.lookup (String.mk nm) ctx with
            | some v =>
                (match pyFormat v (String.mk fmt) with
                 | some out => out.toList ++ renderAux ctx fmtRest'.tail
                 | Option.none => (pyStr v).toList ++ renderAux ctx fmtRest'.tail)
            | Option.none => c :: (nm ++ ':' :: (fmt ++ '}' :: renderAux ctx fmtRest'.tail))
          else c :: renderAux ctx rest
      else c :: renderAux ctx rest
termination_by l => l.length
decreasing_by
  all_goals
    (have h1 : (rest.dropWhile isWordChar).length ≤ rest.length :=
       dropWhile_length_le _ _
     have h2 : ((rest.dropWhile isWordChar).tail.dropWhile (fun ch => ch != '}')).length
         ≤ (rest.dropWhile isWordChar).tail.length :=
       dropWhile_length_le _ _
     simp [List.length_tail] at h1 h2 ⊢
     try omega)

/-- `render_template` (`template_engine.py` lines 200-234). -/
def render_template (template : String) (ctx : Context) : String :=
  String.mk (renderAux ctx template.toList)

/-- `ColorRule` (`config.py` lines 65-69). -/
structure ColorRule where
  color : ℤ × ℤ × ℤ
  «when» : Option String
deriving DecidableEq

/-- `VariableCondition` (`config.py` lines 78-83). -/
structure VariableCondition where
  «when» : Option String
  value : Option String
  format : Option String
deriving DecidableEq

/-- `VariableConfig` (`config.py` lines 86-91). -/
structure VariableConfig where
  type : String
  expr : Option String
  conditions : List VariableCondition
deriving DecidableEq

/-- `str.strip` over the character set `{}` (both braces), both ends. -/
def stripBraces (s : String) : String :=
  String.mk (((s.toList.dropWhile (fun c => c == '{' || c == '}')).reverse.dropWhile
      (fun c => c == '{' || c == '}')).reverse)

/-- The shared branch body of the `conditional` arm of `resolve_variable`
(lines 182-193): `value` takes precedence over `format`, else `None`. -/
def condResult (c : VariableCondition) (ctx : Context) : Value :=
  match c.value with
  | some v => .str v
  | Option.none =>
      match c.format with
      | some f => .str (render_template f ctx)
      | Option.none => .null

/-- The condition loop of the `conditional` arm (lines 179-195). -/
def resolveConds (conds : List VariableCondition) (ctx : Context) : Value :=
  match conds with
  | [] => .null
  | c :: rest =>
      match c.«when» with
      | Option.none => condResult c ctx
      | some w =>
          if evaluate_condition w ctx then condResult c ctx
          else resolveConds rest ctx

/-- `resolve_variable` (`template_engine.py` lines 153-197).  On the domain
where `evaluate_formula` lets an `OverflowError` propagate (`Option.none`,
see C7), the Python overlay pipeline crashes with that exception; the
overlay-layer model stays total and yields `None` there — a domain no overlay
theorem below exercises. -/
def resolve_variable (varConfig : VariableConfig) (ctx : Context) : Value :=
  if varConfig.type = "direct" then
    match varConfig.expr with
    | some e =>
        if e = "" then .null
        else (List.lookup (stripBraces e) ctx).getD (.str e)
    | Option.none => .null
  else if varConfig.type = "formula" then
    match varConfig.expr with
    | some e =>
        if e = "" then .null
        else
          match evaluate_formula e ctx with
          | some v => v
          | Option.none => .null
    | Option.none => .null
  else if varConfig.type = "conditional" then
    resolveConds varConfig.conditions ctx
  else .null

/-- `evaluate_color_rules` (`template_engine.py` lines 237-261). -/
def evaluate_color_rules (rules : List ColorRule) (ctx : Context)
    (defaultColor : ℤ × ℤ × ℤ) : ℤ × ℤ × ℤ :=
  match rules with
  | [] => defaultColor
  | r :: rest =>
      match r.«when» with
      | Option.none => r.color
      | some w =>
          if evaluate_condition w ctx then r.color
          else evaluate_color_rules rest ctx defaultColor

/-- `build_context` (`template_engine.py` lines 264-286): variables are
resolved in declaration order against the growing context. -/
def build_context (sensorData : Context)
    («variables» : List (String × VariableConfig)) : Context :=
  «variables».foldl (fun ctx nv => setKey nv.1 (resolve_variable nv.2 ctx) ctx) sensorData

/-! ## Overlays and the overlay cache (`overlays.py`) -/

/-- `OverlayStyle` (`config.py` lines 39-48). -/
structure OverlayStyle where
  font : String
  font_scale : ℚ
  thickness : ℤ
  box_height : ℤ
  padding_left : ℤ
  padding_top : ℤ
  background_color : ℤ × ℤ × ℤ
deriving DecidableEq

/-- `TextOverlayConfig` (`config.py` lines 121-131); the `variables` dict is
an insertion-ordered association list. -/
structure TextOverlayConfig where
  id : String
  template : String
  cameras : List String
  «variables» : List (String × VariableConfig)
  color_rules : List ColorRule
  color : Option (ℤ × ℤ × ℤ)
  style : Option OverlayStyle
  visible_when : Option String
deriving DecidableEq

/-- `SensorData` (`overlays.py` lines 35-58). -/
structure SensorData where
  laser_distance : ℚ
  laser_active : Bool
  pressure_manifold : ℚ
  pressure_base : ℚ
  robot_status : String
  is_manual_review : Bool
deriving DecidableEq

/-- `SensorData.to_dict` (`dataclasses.asdict`, field order). -/
def SensorData.to_dict (s : SensorData) : Context :=
  [("laser_distance", .float s.laser_distance),
   ("laser_active", .bool s.laser_active),
   ("pressure_manifold", .float s.pressure_manifold),
   ("pressure_base", .float s.pressure_base),
   ("robot_status", .str s.robot_status),
   ("is_manual_review", .bool s.is_manual_review)]

/-- The sensor fingerprint `SensorData.cache_key` (`overlays.py` lines 49-58). -/
abbrev CacheKey := ℚ × Bool × ℚ × ℚ × String × Bool

/-- `SensorData.cache_key`. -/
def SensorData.cache_key (s : SensorData) : CacheKey :=
  (s.laser_distance, s.laser_active, s.pressure_manifold, s.pressure_base,
   s.robot_status, s.is_manual_review)

/-- A cached overlay result: (text, color, visible). -/
abbrev OverlayResult := String × (ℤ × ℤ × ℤ) × Bool

/-- The module-level `_overlay_cache` dict (`overlays.py` line 19). -/
abbrev Cache := List ((String × CacheKey) × OverlayResult)

/-- `_compute_overlay` (`overlays.py` lines 109-157), with the mutation of the
module-level cache made explicit as a returned value. -/
def compute_overlay (cfg : TextOverlayConfig) (sensorData : Context)
    (cacheKey : CacheKey) (cache : Cache) : OverlayResult × Cache :=
  let fullKey := (cfg.id, cacheKey)
  match List.lookup fullKey cache with
  | some r => (r, cache)
  | Option.none =>
      let ctx := build_context sensorData cfg.«variables»
      let visible :=
        match cfg.visible_when with
        | some w => if w = "" then true else evaluate_condition w ctx
        | Option.none => true
      if visible = false then
        let r : OverlayResult := ("", (255, 255, 255), false)
        (r, setKey fullKey r cache)
      else
        let text := render_template cfg.template ctx
        let color :=
          match cfg.color with
          | some c => c
          | Option.none =>
              if cfg.color_rules.isEmpty = false then
                evaluate_color_rules cfg.color_rules ctx (255, 255, 255)
              else (255, 255, 255)
        let r : OverlayResult := (text, color, true)
        (r, setKey fullKey r cache)

/-- `draw_text_overlay` (`overlays.py` lines 160-218).  The call to
`draw_text_box` (an external pixel-drawing collaborator) is modelled by the
returned draw action `some (text, color)` (`none` when nothing is drawn);
the second component is the returned y offset. -/
def draw_text_overlay (cfg : TextOverlayConfig) (sensorData : Context)
    (yOffset : ℤ) (defaultStyle : OverlayStyle) (cacheKey : Option CacheKey)
    (cache : Cache) : (Option (String × (ℤ × ℤ × ℤ)) × ℤ) × Cache :=
  match cacheKey with
  | some k =>
      let res := compute_overlay cfg sensorData k cache
      if res.1.2.2 = false then ((Option.none, yOffset), res.2)
      else
        let style := (cfg.style).getD defaultStyle
        ((some (res.1.1, res.1.2.1), yOffset + style.box_height), res.2)
  | Option.none =>
      let ctx := build_context sensorData cfg.«variables»
      let visible :=
        match cfg.visible_when with
        | some w => if w = "" then true else evaluate_condition w ctx
        | Option.none => true
      if visible = false then ((Option.none, yOffset), cache)
      else
        let text := render_template cfg.template ctx
        let color :=
          match cfg.color with
          | some c => c
          | Option.none =>
              if cfg.color_rules.isEmpty = false then
                evaluate_color_rules cfg.color_rules ctx (255, 255, 255)
              else (255, 255, 255)
        let style := (cfg.style).getD defaultStyle
        ((some (text, color), yOffset + style.box_height), cache)

/-! ## Layout lemmas -/

/-- `resize` sets the node's height to the requested height. -/
theorem resize_height (t : LNode) (nh nw : ℤ) (ts : TargetSizes) :
    ((resize t nh nw ts).1).height = nh := by
  cases t with
  | leaf c h w => simp [resize, LNode.height]
  | junction d h w l r => cases d <;> simp [resize, LNode.height]

/-- `resize` sets the node's width to the requested width. -/
theorem resize_width (t : LNode) (nh nw : ℤ) (ts : TargetSizes) :
    ((resize t nh nw ts).1).width = nw := by
  cases t with
  | leaf c h w => simp [resize, LNode.width]
  | junction d h w l r => cases d <;> simp [resize, LNode.width]

/-- After any `resize`, the perpendicular-dimension invariant holds: both
children always receive the full perpendicular dimension. -/
theorem perpOK_resize (t : LNode) (nh nw : ℤ) (ts : TargetSizes) :
    perpOK ((resize t nh nw ts).1) = true := by
  induction t generalizing nh nw ts with
  | leaf c h w => simp [resize, perpOK]
  | junction d h w l r ihl ihr =>
      cases d
      · simp [resize, perpOK, resize_width, ihl, ihr]
      · simp [resize, perpOK, resize_height, ihl, ihr]

/-- After any `resize`, every junction's children sum exactly to its dimension
along the concatenation axis: the right child always receives the exact
remainder. -/
theorem sumOK_resize (t : LNode) (nh nw : ℤ) (ts : TargetSizes) :
    sumOK ((resize t nh nw ts).1) = true := by
  induction t generalizing nh nw ts with
  | leaf c h w => simp [resize, sumOK]
  | junction d h w l r ihl ihr =>
      cases d
      · simp [resize, sumOK, resize_height, ihl, ihr]
      · simp [resize, sumOK, resize_width, ihl, ihr]

/-- `make_junction_node` preserves the perpendicular invariant and establishes
it at the new junction. -/
theorem perpOK_mjn (n1 n2 : LNode) (d : Direction) (ts : TargetSizes)
    (h1 : perpOK n1 = true) (h2 : perpOK n2 = true) :
    perpOK ((make_junction_node n1 n2 d ts).1) = true := by
  cases d
  · simp only [make_junction_node]
    split_ifs with ha hb
    · simp [perpOK, resize_width, perpOK_resize, h2]
    · simp [perpOK, resize_width, perpOK_resize, h1]
    · have hw : n1.width = n2.width := by omega
      simp [perpOK, hw, h1, h2]
  · simp only [make_junction_node]
    split_ifs with ha hb
    · simp [perpOK, resize_height, perpOK_resize, h2]
    · simp [perpOK, resize_height, perpOK_resize, h1]
    · have hh : n1.height = n2.height := by omega
      simp [perpOK, hh, h1, h2]

/-- The pairwise combination loop preserves the perpendicular invariant. -/
theorem perpOK_foldJunctions (d : Direction) (rest : List LNode) (acc : LNode)
    (ts : TargetSizes) (hacc : perpOK acc = true)
    (hrest : ∀ n ∈ rest, perpOK n = true) :
    perpOK ((foldJunctions d acc rest ts).1) = true := by
  induction rest generalizing acc ts with
  | nil => simpa [foldJunctions] using hacc
  | cons n more ih =>
      simp only [foldJunctions]
      exact ih _ _ (perpOK_mjn _ _ _ _ hacc (hrest n (by simp)))
        (fun m hm => hrest m (by simp [hm]))

mutual

/-- Every tree built by `build_layout_from_config` satisfies the
perpendicular-dimension invariant. -/
theorem build_perpOK (cfg : LayoutNodeConfig) (cs : CameraSizes)
    (ts : TargetSizes) (t : LNode) (ts' : TargetSizes)
    (hb : build_layout_from_config cfg cs ts = some (t, ts')) :
    perpOK t = true := by
  cases cfg with
  | mk dir cam children =>
      cases cam with
      | some camera =>
          simp only [build_layout_from_config, Option.some.injEq, Prod.mk.injEq] at hb
          rw [← hb.1]
          simp [perpOK]
      | none =>
          simp only [build_layout_from_config] at hb
          by_cases hlen : children.length < 2
          · simp [hlen] at hb
          · rw [if_neg hlen] at hb
            cases hbc : buildChildren children cs ts with
            | none => simp [hbc] at hb
            | some p =>
                obtain ⟨ns, ts₁⟩ := p
                simp only [hbc] at hb
                cases ns with
                | nil => simp at hb
                | cons n ns' =>
                    simp only [Option.some.injEq] at hb
                    have hall := buildChildren_perpOK children cs ts (n :: ns') ts₁ hbc
                    have hfold := perpOK_foldJunctions
                      (if dir = some "horizontal" then Direction.horizontal else Direction.vertical)
                      ns' n ts₁ (hall n (by simp)) (fun m hm => hall m (by simp [hm]))
                    rw [hb] at hfold
                    simpa using hfold

/-- Every node built by the child-building loop satisfies the invariant. -/
theorem buildChildren_perpOK (cfgs : List LayoutNodeConfig) (cs : CameraSizes)
    (ts : TargetSizes) (ns : List LNode) (ts' : TargetSizes)
    (hb : buildChildren cfgs cs ts = some (ns, ts')) :
    ∀ n ∈ ns, perpOK n = true := by
  cases cfgs with
  | nil =>
      simp only [buildChildren, Option.some.injEq, Prod.mk.injEq] at hb
      rw [← hb.1]
      intro n hn
      simp at hn
  | cons c rest =>
      simp only [buildChildren] at hb
      cases h1 : build_layout_from_config c cs ts with
      | none => simp [h1] at hb
      | some p =>
          obtain ⟨n₀, ts₁⟩ := p
          simp only [h1] at hb
          cases h2 : buildChildren rest cs ts₁ with
          | none => simp [h2] at hb
          | some q =>
              obtain ⟨ns₀, ts₂⟩ := q
              simp only [h2, Option.some.injEq, Prod.mk.injEq] at hb
              have hhead := build_perpOK c cs ts n₀ ts₁ h1
              have htail := buildChildren_perpOK rest cs ts₁ ns₀ ts₂ h2
              rw [← hb.1]
              intro n hn
              rcases List.mem_cons.mp hn with h | h
              · rw [h]; exact hhead
              · exact htail n h

end

/-- `pyRound` is within 1/2 of its argument. -/
theorem pyRound_abs_le (q : ℚ) : |q - (pyRound q : ℚ)| ≤ 1 / 2 := by
  have h0 : (⌊q⌋ : ℚ) ≤ q := Int.floor_le q
  have h1 : q < (⌊q⌋ : ℚ) + 1 := Int.lt_floor_add_one q
  simp only [pyRound]
  split_ifs with ha hb hc <;> rw [abs_le] <;> push_cast <;> constructor <;> linarith

/-- At a tie (fractional part exactly 1/2), `pyRound` returns an even
integer. -/
theorem pyRound_tie_even (q : ℚ) (h : q - (⌊q⌋ : ℚ) = 1 / 2) :
    pyRound q % 2 = 0 := by
  simp only [pyRound]
  split_ifs with ha hb hc
  · rw [h] at ha; norm_num at ha
  · rw [h] at hb; norm_num at hb
  · exact hc
  · omega

/-! ## Claim theorems: layout sizing -/

/-- C2 (counterexample): combining a 5×2 subtree above a 1×1 subtree
vertically scales the wider subtree's height by 1/2 to exactly 2.5, which the
code (Python's `round`, ties to even) takes to 2, while the claim's
half-away-from-zero rounding takes 2.5 to 3.  Every float step here
(`1/2 = 0.5`, `5·0.5 = 2.5`) is exact in IEEE-754, so the rational model
agrees with the running code. -/
theorem mjn_round_ties_cex :
    ((make_junction_node (.leaf "a" 5 2) (.leaf "b" 1 1) .vertical []).1.leftChild.getD
        (.leaf "" 0 0)).height = 2
    ∧ specRoundHalfAway ((5 : ℚ) * ((1 : ℚ) / (2 : ℚ))) = 3 := by
  constructor
  · simp only [make_junction_node, resize, LNode.leftChild, LNode.height, LNode.width, setKey]
    norm_num [pyRound]
  · norm_num [specRoundHalfAway]

/-- C2 (amended): whenever the two subtrees' perpendicular dimensions differ
— in either direction, whichever subtree is the larger — `make_junction_node`
scales the larger subtree's axis dimension by the exact factor
smaller-dimension / larger-dimension and rounds it with Python's `round`,
which rounds to the nearest integer with ties going to the even neighbour
(not half away from zero); with equal perpendicular dimensions nothing is
scaled. -/
theorem mjn_scale_round_to_even (n1 n2 : LNode) (ts : TargetSizes) :
    (if n2.width < n1.width then
        ((make_junction_node n1 n2 .vertical ts).1.leftChild.getD (.leaf "" 0 0)).height
          = pyRound ((n1.height : ℚ) * ((n2.width : ℚ) / (n1.width : ℚ)))
      else if n1.width < n2.width then
        ((make_junction_node n1 n2 .vertical ts).1.rightChild.getD (.leaf "" 0 0)).height
          = pyRound ((n2.height : ℚ) * ((n1.width : ℚ) / (n2.width : ℚ)))
      else
        make_junction_node n1 n2 .vertical ts
          = (.junction .vertical (n1.height + n2.height) n1.width n1 n2, ts))
    ∧ (if n2.height < n1.height then
        ((make_junction_node n1 n2 .horizontal ts).1.leftChild.getD (.leaf "" 0 0)).width
          = pyRound ((n1.width : ℚ) * ((n2.height : ℚ) / (n1.height : ℚ)))
      else if n1.height < n2.height then
        ((make_junction_node n1 n2 .horizontal ts).1.rightChild.getD (.leaf "" 0 0)).width
          = pyRound ((n2.width : ℚ) * ((n1.height : ℚ) / (n2.height : ℚ)))
      else
        make_junction_node n1 n2 .horizontal ts
          = (.junction .horizontal n1.height (n1.width + n2.width) n1 n2, ts))
    ∧ (∀ q : ℚ, |q - (pyRound q : ℚ)| ≤ 1 / 2)
    ∧ (∀ q : ℚ, q - (⌊q⌋ : ℚ) = 1 / 2 → pyRound q % 2 = 0) := by
  refine ⟨?_, ?_, pyRound_abs_le, pyRound_tie_even⟩
  · split_ifs with h1 h2
    · simp only [make_junction_node, if_pos h1]
      simp [LNode.leftChild, resize_height]
    · simp only [make_junction_node, if_neg h1, if_pos h2]
      simp [LNode.rightChild, resize_height]
    · simp [make_junction_node, h1, h2]
  · split_ifs with h1 h2
    · simp only [make_junction_node, if_pos h1]
      simp [LNode.leftChild, resize_width]
    · simp only [make_junction_node, if_neg h1, if_pos h2]
      simp [LNode.rightChild, resize_width]
    · simp [make_junction_node, h1, h2]

/-- Witness for C2 (amended) at the junction of a 5×2 and a 3×1 subtree,
instantiating every case of the trichotomy (the scaled branch vertically,
the scaled branch horizontally, and the rounding facts). -/
theorem mjn_scale_round_to_even_witness :
    (if (LNode.leaf "b" 3 1).width < (LNode.leaf "a" 5 2).width then
        ((make_junction_node (.leaf "a" 5 2) (.leaf "b" 3 1) .vertical []).1.leftChild.getD
            (.leaf "" 0 0)).height
          = pyRound (((LNode.leaf "a" 5 2).height : ℚ)
              * (((LNode.leaf "b" 3 1).width : ℚ) / ((LNode.leaf "a" 5 2).width : ℚ)))
      else if (LNode.leaf "a" 5 2).width < (LNode.leaf "b" 3 1).width then
        ((make_junction_node (.leaf "a" 5 2) (.leaf "b" 3 1) .vertical []).1.rightChild.getD
            (.leaf "" 0 0)).height
          = pyRound (((LNode.leaf "b" 3 1).height : ℚ)
              * (((LNode.leaf "a" 5 2).width : ℚ) / ((LNode.leaf "b" 3 1).width : ℚ)))
      else
        make_junction_node (.leaf "a" 5 2) (.leaf "b" 3 1) .vertical []
          = (.junction .vertical ((LNode.leaf "a" 5 2).height + (LNode.leaf "b" 3 1).height)
              (LNode.leaf "a" 5 2).width (.leaf "a" 5 2) (.leaf "b" 3 1), []))
    ∧ (if (LNode.leaf "b" 3 1).height < (LNode.leaf "a" 5 2).height then
        ((make_junction_node (.leaf "a" 5 2) (.leaf "b" 3 1) .horizontal []).1.leftChild.getD
            (.leaf "" 0 0)).width
          = pyRound (((LNode.leaf "a" 5 2).width : ℚ)
              * (((LNode.leaf "b" 3 1).height : ℚ) / ((LNode.leaf "a" 5 2).height : ℚ)))
      else if (LNode.leaf "a" 5 2).height < (LNode.leaf "b" 3 1).height then
        ((make_junction_node (.leaf "a" 5 2) (.leaf "b" 3 1) .horizontal []).1.rightChild.getD
            (.leaf "" 0 0)).width
          = pyRound (((LNode.leaf "b" 3 1).width : ℚ)
              * (((LNode.leaf "a" 5 2).height : ℚ) / ((LNode.leaf "b" 3 1).height : ℚ)))
      else
        make_junction_node (.leaf "a" 5 2) (.leaf "b" 3 1) .horizontal []
          = (.junction .horizontal (LNode.leaf "a" 5 2).height
              ((LNode.leaf "a" 5 2).width + (LNode.leaf "b" 3 1).width)
              (.leaf "a" 5 2) (.leaf "b" 3 1), []))
    ∧ (∀ q : ℚ, |q - (pyRound q : ℚ)| ≤ 1 / 2)
    ∧ (∀ q : ℚ, q - (⌊q⌋ : ℚ) = 1 / 2 → pyRound q % 2 = 0) :=
  mjn_scale_round_to_even (.leaf "a" 5 2) (.leaf "b" 3 1) []

/-- C3: resizing a junction with positive dimension along its axis gives the
left child `round(leftOld · newTotal / oldTotal)`, the right child exactly the
remainder, and the whole resized tree satisfies the exact-sum invariant at
every junction (no rounding drift). -/
theorem resize_junction_distributes (d : Direction) (h w : ℤ) (l r : LNode)
    (nh nw : ℤ) (ts : TargetSizes)
    (hpos : 0 < (if d = .vertical then h else w)) :
    sumOK ((resize (.junction d h w l r) nh nw ts).1) = true
    ∧ ((resize (.junction d h w l r) nh nw ts).1).height = nh
    ∧ ((resize (.junction d h w l r) nh nw ts).1).width = nw
    ∧ (if d = .vertical then
        ((resize (.junction d h w l r) nh nw ts).1.leftChild.getD (.leaf "" 0 0)).height
            = pyRound ((l.height : ℚ) * (nh : ℚ) / (h : ℚ))
        ∧ ((resize (.junction d h w l r) nh nw ts).1.rightChild.getD (.leaf "" 0 0)).height
            = nh - pyRound ((l.height : ℚ) * (nh : ℚ) / (h : ℚ))
      else
        ((resize (.junction d h w l r) nh nw ts).1.leftChild.getD (.leaf "" 0 0)).width
            = pyRound ((l.width : ℚ) * (nw : ℚ) / (w : ℚ))
        ∧ ((resize (.junction d h w l r) nh nw ts).1.rightChild.getD (.leaf "" 0 0)).width
            = nw - pyRound ((l.width : ℚ) * (nw : ℚ) / (w : ℚ))) := by
  refine ⟨sumOK_resize _ _ _ _, resize_height _ _ _ _, resize_width _ _ _ _, ?_⟩
  cases d
  · simp [resize, LNode.leftChild, LNode.rightChild, resize_height, mul_div_assoc]
  · simp [resize, LNode.leftChild, LNode.rightChild, resize_width, mul_div_assoc]

/-- Witness for C3 at a vertical junction of total height 3 resized to 5. -/
theorem resize_junction_distributes_witness :
    ((0 : ℤ) < (if Direction.vertical = Direction.vertical then (3 : ℤ) else (10 : ℤ)))
    ∧ (sumOK ((resize (.junction .vertical 3 10 (.leaf "a" 1 10) (.leaf "b" 2 10)) 5 10 []).1)
          = true
      ∧ ((resize (.junction .vertical 3 10 (.leaf "a" 1 10) (.leaf "b" 2 10)) 5 10 []).1).height
          = 5
      ∧ ((resize (.junction .vertical 3 10 (.leaf "a" 1 10) (.leaf "b" 2 10)) 5 10 []).1).width
          = 10
      ∧ (((resize (.junction .vertical 3 10 (.leaf "a" 1 10) (.leaf "b" 2 10)) 5 10
              []).1.leftChild.getD (.leaf "" 0 0)).height
            = pyRound (((LNode.leaf "a" 1 10).height : ℚ) * ((5 : ℤ) : ℚ) / ((3 : ℤ) : ℚ))
        ∧ ((resize (.junction .vertical 3 10 (.leaf "a" 1 10) (.leaf "b" 2 10)) 5 10
              []).1.rightChild.getD (.leaf "" 0 0)).height
            = 5 - pyRound (((LNode.leaf "a" 1 10).height : ℚ) * ((5 : ℤ) : ℚ) / ((3 : ℤ) : ℚ)))) :=
  ⟨by decide,
   resize_junction_distributes .vertical 3 10 (.leaf "a" 1 10) (.leaf "b" 2 10) 5 10 []
     (by decide)⟩

/-- C4: every layout tree built by `build_layout_from_config` satisfies the
perpendicular-dimension invariant (a vertical junction's children share their
width, a horizontal junction's children their height, recursively), and every
`resize` call preserves the invariant. -/
theorem build_layout_perp_invariant (cfg : LayoutNodeConfig) (cs : CameraSizes)
    (ts ts' : TargetSizes) (t : LNode)
    (hb : build_layout_from_config cfg cs ts = some (t, ts')) :
    perpOK t = true
    ∧ (∀ (u : LNode) (nh nw : ℤ) (ts₀ : TargetSizes),
        perpOK u = true → perpOK ((resize u nh nw ts₀).1) = true) :=
  ⟨build_perpOK cfg cs ts t ts' hb,
   fun u nh nw ts₀ _ => perpOK_resize u nh nw ts₀⟩

/-- Witness for C4 on a two-camera vertical layout with mismatched widths. -/
theorem build_layout_perp_invariant_witness :
    (build_layout_from_config
        (.mk (some "vertical") Option.none
          [.mk Option.none (some "a") [], .mk Option.none (some "b") []])
        [("a", (480, 640)), ("b", (240, 320))] []
      = some (.junction .vertical 480 320 (.leaf "a" 240 320) (.leaf "b" 240 320),
              [("a", (240, 320)), ("b", (240, 320))]))
    ∧ perpOK (.junction .vertical 480 320 (.leaf "a" 240 320) (.leaf "b" 240 320)) = true
    ∧ (∀ (u : LNode) (nh nw : ℤ) (ts₀ : TargetSizes),
        perpOK u = true → perpOK ((resize u nh nw ts₀).1) = true) := by
  have hb : build_layout_from_config
      (.mk (some "vertical") Option.none
        [.mk Option.none (some "a") [], .mk Option.none (some "b") []])
      [("a", (480, 640)), ("b", (240, 320))] []
    = some (.junction .vertical 480 320 (.leaf "a" 240 320) (.leaf "b" 240 320),
            [("a", (240, 320)), ("b", (240, 320))]) := by
    simp [build_layout_from_config, buildChildren, foldJunctions, make_junction_node,
      resize, LNode.height, LNode.width, setKey, List.lookup]
    norm_num [pyRound]
  exact ⟨hb, (build_layout_perp_invariant _ _ _ _ _ hb).1,
    (build_layout_perp_invariant _ _ _ _ _ hb).2⟩

/-- C5: `make_junction_node` on subtrees of equal perpendicular dimension
resizes nothing and sums the axis dimension exactly; otherwise the subtree
with the larger perpendicular dimension is scaled down to match the smaller
one, which is left untouched (never upscaled).  Both directions are covered. -/
theorem mjn_policy (n1 n2 : LNode) (ts : TargetSizes) :
    (if n1.width = n2.width then
        make_junction_node n1 n2 .vertical ts
          = (.junction .vertical (n1.height + n2.height) n1.width n1 n2, ts)
      else if n2.width < n1.width then
        ((make_junction_node n1 n2 .vertical ts).1.leftChild.getD (.leaf "" 0 0)).width
            = n2.width
        ∧ (make_junction_node n1 n2 .vertical ts).1.rightChild = some n2
      else
        (make_junction_node n1 n2 .vertical ts).1.leftChild = some n1
        ∧ ((make_junction_node n1 n2 .vertical ts).1.rightChild.getD (.leaf "" 0 0)).width
            = n1.width)
    ∧ (if n1.height = n2.height then
        make_junction_node n1 n2 .horizontal ts
          = (.junction .horizontal n1.height (n1.width + n2.width) n1 n2, ts)
      else if n2.height < n1.height then
        ((make_junction_node n1 n2 .horizontal ts).1.leftChild.getD (.leaf "" 0 0)).height
            = n2.height
        ∧ (make_junction_node n1 n2 .horizontal ts).1.rightChild = some n2
      else
        (make_junction_node n1 n2 .horizontal ts).1.leftChild = some n1
        ∧ ((make_junction_node n1 n2 .horizontal ts).1.rightChild.getD (.leaf "" 0 0)).height
            = n1.height) := by
  constructor
  · split_ifs with heq hlt
    · have c1 : ¬(n2.width < n1.width) := by omega
      have c2 : ¬(n1.width < n2.width) := by omega
      simp [make_junction_node, c1, c2, heq]
    · simp [make_junction_node, if_pos hlt, LNode.leftChild, LNode.rightChild, resize_width]
    · have c1 : ¬(n2.width < n1.width) := hlt
      have c2 : n1.width < n2.width := by omega
      simp [make_junction_node, c1, c2, LNode.leftChild, LNode.rightChild, resize_width]
  · split_ifs with heq hlt
    · have c1 : ¬(n2.height < n1.height) := by omega
      have c2 : ¬(n1.height < n2.height) := by omega
      simp [make_junction_node, c1, c2, heq]
    · simp [make_junction_node, if_pos hlt, LNode.leftChild, LNode.rightChild, resize_height]
    · have c1 : ¬(n2.height < n1.height) := hlt
      have c2 : n1.height < n2.height := by omega
      simp [make_junction_node, c1, c2, LNode.leftChild, LNode.rightChild, resize_height]

/-! ## Lemmas on operator scanning -/

/-- `isPrefixOf` characterised by an existential decomposition. -/
theorem isPrefixOf_iff_exists_append (p s : List Char) :
    p.isPrefixOf s = true ↔ ∃ t, s = p ++ t := by
  induction p generalizing s with
  | nil => simp [List.isPrefixOf]
  | cons a p ih =>
      cases s with
      | nil => simp [List.isPrefixOf]
      | cons b t =>
          simp only [List.isPrefixOf, Bool.and_eq_true, beq_iff_eq, ih, List.cons_append,
            List.cons.injEq]
          constructor
          · rintro ⟨rfl, u, rfl⟩
            exact ⟨u, rfl, rfl⟩
          · rintro ⟨u, rfl, rfl⟩
            exact ⟨rfl, u, rfl⟩

/-- `splitFirst` really splits at the first occurrence of the pattern: the
input decomposes around the pattern, and no decomposition has a shorter
prefix. -/
theorem splitFirst_sound (pat : List Char) (s l r : List Char)
    (h : splitFirst pat s = some (l, r)) :
    s = l ++ pat ++ r ∧ ∀ l' r', s = l' ++ pat ++ r' → l.length ≤ l'.length := by
  induction s generalizing l r with
  | nil =>
      by_cases hp : pat = []
      · subst hp
        rw [show splitFirst ([] : List Char) [] = some ([], []) from rfl] at h
        simp at h
        obtain ⟨rfl, rfl⟩ := h
        exact ⟨rfl, fun l' r' _ => by simp⟩
      · rw [splitFirst, if_neg hp] at h
        exact absurd h (by simp)
  | cons c t ih =>
      by_cases hpre : pat.isPrefixOf (c :: t) = true
      · obtain ⟨u, hu⟩ := (isPrefixOf_iff_exists_append pat (c :: t)).mp hpre
        rw [splitFirst, if_pos hpre] at h
        simp only [Option.some.injEq, Prod.mk.injEq] at h
        obtain ⟨rfl, rfl⟩ := h
        refine ⟨?_, fun l' r' _ => by simp⟩
        rw [hu, List.drop_left, List.nil_append]
      · rw [splitFirst, if_neg hpre] at h
        cases hrec : splitFirst pat t with
        | none => rw [hrec] at h; simp at h
        | some p =>
            obtain ⟨l₀, r₀⟩ := p
            rw [hrec] at h
            simp only [Option.map_some', Option.some.injEq, Prod.mk.injEq] at h
            obtain ⟨h1, h2⟩ := h
            rw [← h1, ← h2]
            obtain ⟨hdec, hmin⟩ := ih l₀ r₀ hrec
            constructor
            · rw [List.cons_append, List.cons_append, ← hdec]
            · intro l' r' heq
              cases l' with
              | nil =>
                  exfalso
                  apply hpre
                  rw [isPrefixOf_iff_exists_append]
                  exact ⟨r', by simpa using heq⟩
              | cons c' l₁ =>
                  simp only [List.cons_append, List.cons.injEq] at heq
                  have := hmin l₁ r' heq.2
                  simp only [List.length_cons]
                  omega

/-- When `splitFirst` finds nothing, the pattern occurs nowhere. -/
theorem splitFirst_none (pat s : List Char) (h : splitFirst pat s = Option.none) :
    ∀ l r, s ≠ l ++ pat ++ r := by
  induction s with
  | nil =>
      intro l r heq
      have hp : pat ≠ [] := by
        intro hp0
        rw [splitFirst, if_pos hp0] at h
        exact absurd h (by simp)
      cases l with
      | cons c l₁ => simp at heq
      | nil =>
          simp only [List.nil_append] at heq
          obtain ⟨hp0, -⟩ := List.append_eq_nil.mp heq.symm
          exact hp hp0
  | cons c t ih =>
      by_cases hpre : pat.isPrefixOf (c :: t) = true
      · rw [splitFirst, if_pos hpre] at h
        simp at h
      · rw [splitFirst, if_neg hpre] at h
        cases hrec : splitFirst pat t with
        | some p => rw [hrec] at h; simp at h
        | none =>
            intro l r heq
            cases l with
            | nil =>
                apply hpre
                rw [isPrefixOf_iff_exists_append]
                exact ⟨r, by simpa using heq⟩
            | cons c' l₁ =>
                simp only [List.cons_append, List.cons.injEq] at heq
                exact ih hrec l₁ r heq.2

/-- The operator loop tries the operators in list order: a successful result
means every earlier operator occurs nowhere in the string and the returned
split is `splitFirst` of the returned operator. -/
theorem findOpAux_sound (s : List Char) (ops : List CmpOp) (op : CmpOp)
    (l r : List Char) (h : findOpAux s ops = some (op, l, r)) :
    ∃ pre post, ops = pre ++ op :: post
      ∧ (∀ o ∈ pre, splitFirst (opToken o) s = Option.none)
      ∧ splitFirst (opToken op) s = some (l, r) := by
  induction ops with
  | nil => simp [findOpAux] at h
  | cons o rest ih =>
      rw [findOpAux] at h
      cases hsp : splitFirst (opToken o) s with
      | some p =>
          obtain ⟨l₀, r₀⟩ := p
          rw [hsp] at h
          simp only [Option.some.injEq, Prod.mk.injEq] at h
          obtain ⟨rfl, rfl, rfl⟩ := h
          exact ⟨[], rest, rfl, by simp, hsp⟩
      | none =>
          rw [hsp] at h
          obtain ⟨pre, post, hops, hpre, hop⟩ := ih h
          refine ⟨o :: pre, post, by simp [hops], ?_, hop⟩
          intro o' ho'
          rcases List.mem_cons.mp ho' with h' | h'
          · rw [h']; exact hsp
          · exact hpre o' h'

/-! ## Claim theorems: condition evaluation -/

/-- C1 (counterexample): on `"2 < 1 == 2 < 1"` (no variables), the code picks
`==` — the first operator in the `OPERATORS` dict order that occurs anywhere —
and compares the strings `"2 < 1"` and `"2 < 1"`, yielding `True`; the
claim's reading (pick the operator occurring first in the string, here `<` at
index 2) compares `2` with the string `"1 == 2 < 1"`, a `TypeError`, yielding
`False`. -/
theorem condition_operator_order_cex :
    evaluate_condition "2 < 1 == 2 < 1" [] = true
    ∧ evaluateConditionSpecC1 "2 < 1 == 2 < 1" [] = false := by
  constructor
  · simp [evaluate_condition, substituteVariables, subAux, findOpSplit, findOpAux, splitFirst,
      opToken, OPERATORS, applyCmp, compareOp, parseValue, pyStrip, pyStripList, pyLower,
      pyEq, toRat, pyParseIntList, parseDigits, isPySpace, List.takeWhile, List.dropWhile,
      isWordChar]
  · simp [evaluateConditionSpecC1, substituteVariables, subAux, specFindOpSplit, splitFirst,
      opToken, OPERATORS, applyCmp, compareOp, parseValue, pyStrip, pyStripList, pyLower,
      pyEq, pyCmpLt, toRat, pyParseIntList, parseDigits, isPySpace, List.takeWhile,
      List.dropWhile, isWordChar]

/-- C1 (amended): after substitution, `evaluate_condition` applies the first
operator of the ordered set `==, !=, <=, >=, <, >` that occurs *anywhere* in
the string (set order is the priority, not position in the string), splits the
string at that operator's first occurrence, parses both sides with
`_parse_value`, and applies the operator with errors caught as `False`. -/
theorem evaluate_condition_operator_priority (expr : String) (ctx : Context)
    (op : CmpOp) (l r : List Char) (hne : expr ≠ "")
    (h : findOpSplit (substituteVariables expr ctx).toList = some (op, l, r)) :
    (substituteVariables expr ctx).toList = l ++ opToken op ++ r
    ∧ (∀ l' r', (substituteVariables expr ctx).toList = l' ++ opToken op ++ r' →
        l.length ≤ l'.length)
    ∧ (∃ pre post, OPERATORS = pre ++ op :: post
        ∧ ∀ o ∈ pre, ∀ l' r',
            (substituteVariables expr ctx).toList ≠ l' ++ opToken o ++ r')
    ∧ evaluate_condition expr ctx
        = applyCmp op (parseValue (pyStrip (String.mk l)) ctx)
            (parseValue (pyStrip (String.mk r)) ctx) := by
  obtain ⟨pre, post, hops, hpre, hop⟩ := findOpAux_sound _ OPERATORS op l r h
  obtain ⟨hdec, hmin⟩ := splitFirst_sound (opToken op) _ l r hop
  refine ⟨hdec, hmin, ⟨pre, post, hops, ?_⟩, ?_⟩
  · exact fun o ho => splitFirst_none (opToken o) _ (hpre o ho)
  · have h' : findOpSplit (substituteVariables expr ctx).data = some (op, l, r) := h
    simp [evaluate_condition, hne, h']

/-- Witness for C1 (amended) on `"{x} <= 2"` with `x = 1`: the operator found
is `<=`. -/
theorem evaluate_condition_operator_priority_witness :
    (("{x} <= 2" : String) ≠ ""
      ∧ findOpSplit (substituteVariables "{x} <= 2" [("x", .int 1)]).toList
          = some (.le, "1 ".toList, " 2".toList))
    ∧ evaluate_condition "{x} <= 2" [("x", .int 1)]
        = applyCmp .le (parseValue (pyStrip (String.mk "1 ".toList)) [("x", .int 1)])
            (parseValue (pyStrip (String.mk " 2".toList)) [("x", .int 1)]) := by
  have hop : findOpSplit (substituteVariables "{x} <= 2" [("x", .int 1)]).toList
      = some (.le, "1 ".toList, " 2".toList) := by
    simp [substituteVariables, subAux, findOpSplit, findOpAux, splitFirst, opToken,
      OPERATORS, pyStr, List.takeWhile, List.dropWhile, isWordChar, List.lookup]
    try decide
  exact ⟨⟨by decide, hop⟩,
    (evaluate_condition_operator_priority "{x} <= 2" [("x", .int 1)] .le _ _
      (by decide) hop).2.2.2⟩

/-- C6: `evaluate_condition` fails closed — the empty expression is `True` for
every context, and when the comparison between the parsed operands raises
(`compareOp` is `none`, e.g. an `int` ordered against a `str`), the result is
`False` rather than a propagated exception.  (The embedding is a total
function: every other step of the source catches its own errors.) -/
theorem evaluate_condition_fail_closed (expr : String) (ctx : Context)
    (op : CmpOp) (l r : List Char)
    (hop : findOpSplit (substituteVariables expr ctx).toList = some (op, l, r))
    (herr : compareOp op (parseValue (pyStrip (String.mk l)) ctx)
        (parseValue (pyStrip (String.mk r)) ctx) = Option.none) :
    evaluate_condition "" ctx = true ∧ evaluate_condition expr ctx = false := by
  constructor
  · simp [evaluate_condition]
  · by_cases hne : expr = ""
    · subst hne
      simp [substituteVariables, subAux, findOpSplit, findOpAux, splitFirst, OPERATORS,
        opToken] at hop
    · have hop' : findOpSplit (substituteVariables expr ctx).data = some (op, l, r) := hop
      simp [evaluate_condition, hne, hop', applyCmp, herr]

/-- Witness for C6 on `"{x} < 'a'"` with `x = 1`: comparing `1 < 'a'` raises
`TypeError` in Python, and the result is `False`. -/
theorem evaluate_condition_fail_closed_witness :
    (findOpSplit (substituteVariables "{x} < 'a'" [("x", .int 1)]).toList
        = some (.lt, "1 ".toList, " 'a'".toList)
      ∧ compareOp .lt (parseValue (pyStrip (String.mk "1 ".toList)) [("x", .int 1)])
          (parseValue (pyStrip (String.mk " 'a'".toList)) [("x", .int 1)]) = Option.none)
    ∧ (evaluate_condition "" [("x", .int 1)] = true
      ∧ evaluate_condition "{x} < 'a'" [("x", .int 1)] = false) := by
  have hop : findOpSplit (substituteVariables "{x} < 'a'" [("x", .int 1)]).toList
      = some (.lt, "1 ".toList, " 'a'".toList) := by
    simp [substituteVariables, subAux, findOpSplit, findOpAux, splitFirst, opToken,
      OPERATORS, pyStr, List.takeWhile, List.dropWhile, isWordChar, List.lookup]
    try decide
  have herr : compareOp .lt (parseValue (pyStrip (String.mk "1 ".toList)) [("x", .int 1)])
      (parseValue (pyStrip (String.mk " 'a'".toList)) [("x", .int 1)]) = Option.none := by
    simp [compareOp, parseValue, pyStrip, pyStripList, pyLower, isPySpace, pyCmpLt, toRat,
      pyParseIntList, parseDigits]
  exact ⟨⟨hop, herr⟩,
    evaluate_condition_fail_closed "{x} < 'a'" [("x", .int 1)] .lt _ _ hop herr⟩

/-! ## Claim theorems: formula evaluation and color rules -/

/-- C7 (failing input): `evaluate_formula("10.0**400", {})` does raise,
contradicting the fail-closed claim the code itself intends ("Safely
evaluate", spec section 7).  The substituted string passes the character
filter, `eval` computes `10.0 ** 400`, C double `pow` overflows and CPython
raises `OverflowError` — absent from the source's `except (SyntaxError,
NameError, TypeError, ZeroDivisionError)` clause — so the exception
propagates out of `evaluate_formula` (`Option.none`) instead of degrading to
the substituted string.  For contrast, the caught path behaves as claimed:
`"1/0"` raises `ZeroDivisionError`, is caught, and degrades to the
substituted string; and `eval("()")` succeeds with the empty tuple. -/
theorem evaluate_formula_overflow_raises :
    pyEvalArith "10.0**400" = Except.error EvalErr.uncaught
    ∧ evaluate_formula "10.0**400" [] = Option.none
    ∧ evaluate_formula "1/0" [] = some (Value.str "1/0")
    ∧ pyEvalArith "()" = Except.ok Value.etuple := by
  have hpow : floatPow 10 400 = Except.error EvalErr.uncaught := by
    have hcmp : maxDouble < |(10 : ℚ) ^ (400 : ℤ)| := by
      rw [maxDouble, abs_of_nonneg (by positivity)]
      push_cast
      norm_num
    simp only [floatPow]
    rw [if_neg (by norm_num), if_pos hcmp]
  have hnp : numPow (.float 10) (.int 400) = Except.error EvalErr.uncaught := by
    simp only [numPow]
    exact hpow
  have ht : tokenize ['1', '0', '.', '0', '*', '*', '4', '0', '0']
      = some [Tok.num (.float 10), Tok.dstar, Tok.num (.int 400)] := by
    simp [tokenize, lexNumber, parseMantissa, parseDigits, digitVal, List.takeWhile,
      List.dropWhile]
    try norm_num
    try decide
  have hparse : parseE 32 [Tok.num (.float 10), Tok.dstar, Tok.num (.int 400)]
      = Except.error EvalErr.uncaught := by
    simp only [parseE, parseELoop, parseT, parseTLoop, parseU, parsePow, parseP, evalPow,
      hnp, Except.map]
  have hpe : pyEvalArith "10.0**400" = Except.error EvalErr.uncaught := by
    simp [pyEvalArith, ht, hparse]
  have hsub : substituteVariables "10.0**400" [] = "10.0**400" := by
    simp [substituteVariables, subAux]
    try rfl
  have hflt : ((("10.0**400" : String).toList.filter (fun c => c ≠ ' ')).all
      (fun c => allowedFormulaChars.contains c)) = true := by decide
  refine ⟨hpe, ?_, ?_, ?_⟩
  · simp only [evaluate_formula]
    rw [hsub, hflt, hpe]
    simp
  · have hsub2 : substituteVariables "1/0" [] = "1/0" := by
      simp [substituteVariables, subAux]
      try rfl
    have hflt2 : ((("1/0" : String).toList.filter (fun c => c ≠ ' ')).all
        (fun c => allowedFormulaChars.contains c)) = true := by decide
    have ht2 : tokenize ['1', '/', '0']
        = some [Tok.num (.int 1), Tok.slash, Tok.num (.int 0)] := by
      simp [tokenize, lexNumber, parseDigits, digitVal, List.takeWhile, List.dropWhile]
      try decide
    have hdiv : evalDiv (EVal.num (.int 1)) (EVal.num (.int 0))
        = Except.error EvalErr.caught := by
      simp [evalDiv, numDiv, Except.map]
    have hparse2 : parseE 32 [Tok.num (.int 1), Tok.slash, Tok.num (.int 0)]
        = Except.error EvalErr.caught := by
      simp only [parseE, parseELoop, parseT, parseTLoop, parseU, parsePow, parseP, hdiv,
        Except.map]
    have hpe2 : pyEvalArith "1/0" = Except.error EvalErr.caught := by
      simp [pyEvalArith, ht2, hparse2]
    simp only [evaluate_formula]
    rw [hsub2, hflt2, hpe2]
    simp
  · have ht3 : tokenize ['(', ')'] = some [Tok.lparen, Tok.rparen] := by
      simp [tokenize]
    have hparse3 : parseE 24 [Tok.lparen, Tok.rparen] = Except.ok (EVal.tup, []) := by
      simp [parseE, parseELoop, parseT, parseTLoop, parseU, parsePow, parseP]
    simp [pyEvalArith, ht3, hparse3, EVal.toValue]

/-- The predicate "this rule matches": no condition (an `else` rule) always
matches; otherwise the condition must evaluate true. -/
def ruleMatches (ctx : Context) (r : ColorRule) : Bool :=
  match r.«when» with
  | Option.none => true
  | some w => evaluate_condition w ctx

/-- C9: `evaluate_color_rules` returns the color of the first rule in
declared order that matches, where a rule without a condition always matches
at its position, and the default color when no rule matches. -/
theorem evaluate_color_rules_first_match (rules : List ColorRule) (ctx : Context)
    (defaultColor : ℤ × ℤ × ℤ) :
    evaluate_color_rules rules ctx defaultColor
      = ((rules.find? (ruleMatches ctx)).map ColorRule.color).getD defaultColor := by
  induction rules with
  | nil => simp [evaluate_color_rules]
  | cons r rest ih =>
      cases hw : r.«when» with
      | none => simp [evaluate_color_rules, List.find?, ruleMatches, hw]
      | some w =>
          by_cases hc : evaluate_condition w ctx
          · simp [evaluate_color_rules, List.find?, ruleMatches, hw, hc]
          · simp [evaluate_color_rules, List.find?, ruleMatches, hw, hc, ih]

/-! ## Claim theorems: overlay cache -/

/-- Looking up the key just written by `setKey` returns the written value. -/
theorem lookup_setKey_self {κ α : Type} [BEq κ] [LawfulBEq κ] (k : κ) (v : α)
    (l : List (κ × α)) : List.lookup k (setKey k v l) = some v := by
  induction l with
  | nil => simp [setKey, List.lookup]
  | cons p rest ih =>
      obtain ⟨k', v'⟩ := p
      by_cases hk : k' = k
      · simp [setKey, hk, List.lookup]
      · have h2 : (k == k') = false := by
          simp [beq_eq_false_iff_ne]
          exact Ne.symm hk
        simp [setKey, hk, List.lookup, ih, h2]

/-- C8: under a cache miss, the cached overlay computation draws exactly what
the direct uncached computation draws and returns the same y offset; a second
call with the same (overlay id, sensor fingerprint) key is served from the
entry cached by the first, returning the identical triple and leaving the
cache unchanged; and the sensor fingerprint determines the whole snapshot, so
a snapshot differing in any field has a different fingerprint. -/
theorem overlay_cache_coherent (cfg : TextOverlayConfig) (s : SensorData)
    (c : Cache) (y : ℤ) (st : OverlayStyle)
    (hmiss : List.lookup (cfg.id, s.cache_key) c = Option.none) :
    ((draw_text_overlay cfg s.to_dict y st (some s.cache_key) c).1
        = (draw_text_overlay cfg s.to_dict y st Option.none c).1)
    ∧ (compute_overlay cfg s.to_dict s.cache_key
          (compute_overlay cfg s.to_dict s.cache_key c).2
        = ((compute_overlay cfg s.to_dict s.cache_key c).1,
            (compute_overlay cfg s.to_dict s.cache_key c).2))
    ∧ (∀ s' : SensorData, s'.cache_key = s.cache_key → s' = s) := by
  refine ⟨?_, ?_, ?_⟩
  · simp only [draw_text_overlay, compute_overlay, hmiss]
    split_ifs <;> simp_all
  · simp only [compute_overlay, hmiss]
    split_ifs <;> simp_all [lookup_setKey_self]
  · intro s' h
    cases s
    cases s'
    simp only [SensorData.cache_key, Prod.mk.injEq] at h
    simp_all

/-- Witness for C8 on a template-only overlay and a concrete sensor snapshot,
starting from the empty cache. -/
theorem overlay_cache_coherent_witness :
    (List.lookup ((⟨"o", "T", ["cam"], [], [], Option.none, Option.none,
          Option.none⟩ : TextOverlayConfig).id,
        (SensorData.mk 35 true (1/2) (3/10) "Stopped" false).cache_key)
        ([] : Cache) = Option.none)
    ∧ (((draw_text_overlay ⟨"o", "T", ["cam"], [], [], Option.none, Option.none, Option.none⟩
          (SensorData.mk 35 true (1/2) (3/10) "Stopped" false).to_dict 0
          ⟨"HERSHEY_SIMPLEX", 4/5, 2, 40, 5, 30, (0, 0, 0)⟩
          (some (SensorData.mk 35 true (1/2) (3/10) "Stopped" false).cache_key) []).1
        = (draw_text_overlay ⟨"o", "T", ["cam"], [], [], Option.none, Option.none, Option.none⟩
            (SensorData.mk 35 true (1/2) (3/10) "Stopped" false).to_dict 0
            ⟨"HERSHEY_SIMPLEX", 4/5, 2, 40, 5, 30, (0, 0, 0)⟩ Option.none []).1)
      ∧ (compute_overlay ⟨"o", "T", ["cam"], [], [], Option.none, Option.none, Option.none⟩
            (SensorData.mk 35 true (1/2) (3/10) "Stopped" false).to_dict
            (SensorData.mk 35 true (1/2) (3/10) "Stopped" false).cache_key
            (compute_overlay ⟨"o", "T", ["cam"], [], [], Option.none, Option.none, Option.none⟩
              (SensorData.mk 35 true (1/2) (3/10) "Stopped" false).to_dict
              (SensorData.mk 35 true (1/2) (3/10) "Stopped" false).cache_key []).2
          = ((compute_overlay ⟨"o", "T", ["cam"], [], [], Option.none, Option.none, Option.none⟩
                (SensorData.mk 35 true (1/2) (3/10) "Stopped" false).to_dict
                (SensorData.mk 35 true (1/2) (3/10) "Stopped" false).cache_key []).1,
              (compute_overlay ⟨"o", "T", ["cam"], [], [], Option.none, Option.none, Option.none⟩
                (SensorData.mk 35 true (1/2) (3/10) "Stopped" false).to_dict
                (SensorData.mk 35 true (1/2) (3/10) "Stopped" false).cache_key []).2))
      ∧ (∀ s' : SensorData,
          s'.cache_key = (SensorData.mk 35 true (1/2) (3/10) "Stopped" false).cache_key →
          s' = SensorData.mk 35 true (1/2) (3/10) "Stopped" false)) :=
  ⟨rfl, overlay_cache_coherent ⟨"o", "T", ["cam"], [], [], Option.none, Option.none,
      Option.none⟩ (SensorData.mk 35 true (1/2) (3/10) "Stopped" false) [] 0
      ⟨"HERSHEY_SIMPLEX", 4/5, 2, 40, 5, 30, (0, 0, 0)⟩ rfl⟩

/-! ## Lemmas on the placeholder scanners -/

/-- Members of `dropWhile` are members of the original list. -/
theorem mem_of_mem_dropWhile {α : Type} (p : α → Bool) (l : List α) (a : α)
    (h : a ∈ l.dropWhile p) : a ∈ l := by
  induction l with
  | nil => simpa [List.dropWhile] using h
  | cons b t ih =>
      by_cases hb : p b
      · simp only [List.dropWhile, hb] at h
        exact List.mem_cons_of_mem _ (ih h)
      · simpa [List.dropWhile, hb] using h

/-- `takeWhile` over an append stops inside the left part when the left part
contains a failing element. -/
theorem takeWhile_append_left {α : Type} (p : α → Bool) (l₁ l₂ : List α)
    (h : l₁.dropWhile p ≠ []) :
    (l₁ ++ l₂).takeWhile p = l₁.takeWhile p := by
  induction l₁ with
  | nil => simp [List.dropWhile] at h
  | cons a t ih =>
      by_cases ha : p a
      · rw [List.dropWhile_cons_of_pos ha] at h
        simp [List.takeWhile, ha, ih h]
      · simp [List.takeWhile, ha]

/-- `dropWhile` over an append stays inside the left part when the left part
contains a failing element. -/
theorem dropWhile_append_left {α : Type} (p : α → Bool) (l₁ l₂ : List α)
    (h : l₁.dropWhile p ≠ []) :
    (l₁ ++ l₂).dropWhile p = l₁.dropWhile p ++ l₂ := by
  induction l₁ with
  | nil => simp [List.dropWhile] at h
  | cons a t ih =>
      by_cases ha : p a
      · rw [List.dropWhile_cons_of_pos ha] at h
        simp [List.dropWhile, ha, ih h]
      · simp [List.dropWhile, ha]

/-- When some element fails the predicate, `dropWhile` is nonempty. -/
theorem dropWhile_ne_nil_of_any {α : Type} (p : α → Bool) (l : List α)
    (h : l.any (fun a => !(p a)) = true) : l.dropWhile p ≠ [] := by
  induction l with
  | nil => simp at h
  | cons a t ih =>
      by_cases ha : p a
      · simp only [List.any_cons, ha, Bool.not_true, Bool.false_or] at h
        rw [List.dropWhile_cons_of_pos ha]
        exact ih h
      · simp [List.dropWhile, ha]

/-- A string with no `{` passes through `subAux` unchanged. -/
theorem subAux_no_lbrace (ctx : Context) (s : List Char) (h : '{' ∉ s) :
    subAux ctx s = s := by
  induction s with
  | nil => simp [subAux]
  | cons c t ih =>
      have hc : ¬(c = '{') := fun hc => h (hc ▸ List.mem_cons_self c t)
      simp only [subAux]
      rw [if_neg hc, ih (fun hm => h (List.mem_cons_of_mem c hm))]

/-- A string with no `{` passes through `renderAux` unchanged. -/
theorem renderAux_no_lbrace (ctx : Context) (s : List Char) (h : '{' ∉ s) :
    renderAux ctx s = s := by
  induction s with
  | nil => simp [renderAux]
  | cons c t ih =>
      have hc : ¬(c = '{') := fun hc => h (hc ▸ List.mem_cons_self c t)
      simp only [renderAux]
      rw [if_neg hc, ih (fun hm => h (List.mem_cons_of_mem c hm))]

/-! ## Claim theorems: placeholder substitution -/

/-- C10 (counterexample): the placeholder `{a:x}` — whose inner text `a:x`
contains the non-word character `:` — is *not* left unchanged by
`render_template`: the pattern `\{(\w+)(:[^}]+)?\}` reads `a` as the variable
and `:x` as a format spec, `format("Y", "x")` raises `ValueError`, and the
fallback `str(value)` produces `"Y"`, even though the context also binds the
key `"a:x"` itself. -/
theorem render_format_spec_cex :
    render_template "{a:x}" [("a", .str "Y"), ("a:x", .str "Z")] = "Y"
    ∧ ("Y" : String) ≠ "{a:x}" := by
  constructor
  · simp [render_template, renderAux, pyFormat, pyStr, List.takeWhile, List.dropWhile,
      isWordChar, List.lookup]
    try rfl
  · decide

/-- C10 (amended): a braced chunk `{name}` whose `name` contains a character
that is neither a word character nor the `:` of a format spec is left
literally unchanged for every context: `_substitute_variables` never touches
it as soon as `name` contains any non-word character, and `render_template`
never touches it when additionally the first non-word character of `name` is
not `:`. -/
theorem placeholder_nonword_unchanged (name : List Char) (ctx : Context)
    (hw : name.any (fun c => !(isWordChar c)) = true)
    (h1 : '{' ∉ name) (h2 : '}' ∉ name) :
    substituteVariables (String.mk ('{' :: (name ++ ['}']))) ctx
        = String.mk ('{' :: (name ++ ['}']))
    ∧ ((name.dropWhile isWordChar).head? ≠ some ':' →
        render_template (String.mk ('{' :: (name ++ ['}']))) ctx
          = String.mk ('{' :: (name ++ ['}']))) := by
  have hd : name.dropWhile isWordChar ≠ [] := dropWhile_ne_nil_of_any _ _ hw
  obtain ⟨e, d', hde⟩ : ∃ e d', name.dropWhile isWordChar = e :: d' := by
    cases hdw : name.dropWhile isWordChar with
    | nil => exact absurd hdw hd
    | cons e d' => exact ⟨e, d', rfl⟩
  have he_mem : e ∈ name := mem_of_mem_dropWhile _ _ _ (by rw [hde]; simp)
  have he_r : e ≠ '}' := fun hh => h2 (hh ▸ he_mem)
  have htw : (name ++ ['}']).takeWhile isWordChar = name.takeWhile isWordChar :=
    takeWhile_append_left _ _ _ hd
  have hdw : (name ++ ['}']).dropWhile isWordChar = e :: (d' ++ ['}']) := by
    rw [dropWhile_append_left _ _ _ hd, hde]
    simp
  have hnol : '{' ∉ name ++ ['}'] := by
    intro hm
    rcases List.mem_append.mp hm with hm | hm
    · exact h1 hm
    · simp at hm
  constructor
  · show String.mk (subAux ctx ('{' :: (name ++ ['}']))) = _
    have hgoal : subAux ctx ('{' :: (name ++ ['}'])) = '{' :: (name ++ ['}']) := by
      simp only [subAux, htw, hdw]
      simp [he_r, subAux_no_lbrace ctx _ hnol]
    rw [hgoal]
  · intro hcolon
    have he_c : e ≠ ':' := by
      rw [hde] at hcolon
      simpa using hcolon
    show String.mk (renderAux ctx ('{' :: (name ++ ['}']))) = _
    have hgoal : renderAux ctx ('{' :: (name ++ ['}'])) = '{' :: (name ++ ['}']) := by
      simp only [renderAux, htw, hdw]
      simp [he_r, he_c, renderAux_no_lbrace ctx _ hnol]
    rw [hgoal]

/-- Witness for C10 (amended) on `{a-b}` with the context binding the key
`a-b` itself. -/
theorem placeholder_nonword_unchanged_witness :
    (("a-b".toList.any (fun c => !(isWordChar c)) = true)
      ∧ '{' ∉ "a-b".toList ∧ '}' ∉ "a-b".toList
      ∧ ("a-b".toList.dropWhile isWordChar).head? ≠ some ':')
    ∧ substituteVariables (String.mk ('{' :: ("a-b".toList ++ ['}']))) [("a-b", .str "Z")]
        = String.mk ('{' :: ("a-b".toList ++ ['}']))
    ∧ render_template (String.mk ('{' :: ("a-b".toList ++ ['}']))) [("a-b", .str "Z")]
        = String.mk ('{' :: ("a-b".toList ++ ['}'])) := by
  have h := placeholder_nonword_unchanged "a-b".toList [("a-b", .str "Z")]
    (by decide) (by decide) (by decide)
  exact ⟨⟨by decide, by decide, by decide, by decide⟩, h.1, h.2 (by decide)⟩

end MVC
